import Mathlib

/-!
Verification of the BON (Binary Object Notation) codec and its
order-preserving byte comparator, a shallow embedding of `src/lib.rs`
of the `pi_bon` crate.

Modelling conventions:

* A Rust `&[u8]` read cursor (`bytes::Buf`) is a `List Nat` of the
  *remaining* bytes; `get_u8`, `get_u16_le`, … consume from the front
  exactly as the `bytes` crate does, and panic (`RErr.panic`) when fewer
  bytes remain than requested, as the `bytes` crate does.
* `ReadBuffer` is `RBuf`: the remaining byte slice plus the diagnostic
  `head` counter, updated exactly where the source updates it (including
  the places where the source updates it incorrectly).
* Fallible reads return `Except (RErr × RBuf) (α × RBuf)`: Rust methods
  take `&mut self`, so state mutated before an `Err` persists; the error
  therefore also carries the buffer state.
* Machine integers are `Nat`/`Int`.  Rust release-profile semantics are
  used for arithmetic overflow (two's-complement wrapping, made explicit
  with `% 2^w` / the `toU`/`toI` casts below) exactly at the expressions
  where the source can overflow for type-correct inputs.
* `f32`/`f64` values are their IEEE-754 bit patterns (`Nat` below `2^32`
  / `2^64`).  The conversions the source performs (`as f64` on integers,
  `f32 as f64`, IEEE `==` against `0.0`/`1.0`) are modelled bit-exactly.
* The target is little-endian (the module header of the source fixes
  "小端-非网络字节序", little-endian like quic), so the native-endian
  operations `put_u16_ne`/`get_u16_ne`/`put_u32_ne`/`get_u32_ne` used by
  the lengthen codec are little-endian.
-/

namespace Bon

/-! ## Integer casts (Rust `as` semantics) -/

/-- Rust `x as uN`: truncate to `w` bits, unsigned result. -/
def toU (w : Nat) (x : Int) : Int := x % 2 ^ w

/-- Rust `x as iN`: truncate to `w` bits, two's-complement signed result. -/
def toI (w : Nat) (x : Int) : Int := (x + 2 ^ (w - 1)) % 2 ^ w - 2 ^ (w - 1)

/-! ## IEEE-754 bit-pattern model for `f32` / `f64` -/

/-- IEEE-754 encoding of a nonnegative integer at `mantBits` mantissa bits and
exponent bias `bias`, with round-to-nearest ties-to-even: the semantics of
Rust's integer-to-float `as` casts.  (No overflow-to-infinity case is needed:
every use in this file converts integers below `2^128`, whose exponents fit
both formats.) -/
def natToBits (mantBits bias n : Nat) : Nat :=
  if n = 0 then 0
  else
    let e := Nat.log2 n
    if e ≤ mantBits then
      (bias + e) * 2 ^ mantBits + (n * 2 ^ (mantBits - e) - 2 ^ mantBits)
    else
      let sh := e - mantBits
      let q := n / 2 ^ sh
      let r := n % 2 ^ sh
      let q1 := if 2 * r > 2 ^ sh ∨ (2 * r = 2 ^ sh ∧ q % 2 = 1) then q + 1 else q
      if q1 = 2 ^ (mantBits + 1) then (bias + e + 1) * 2 ^ mantBits
      else (bias + e) * 2 ^ mantBits + (q1 - 2 ^ mantBits)

/-- Rust `n as f64` for unsigned `n` (bit pattern). -/
def natToF64 (n : Nat) : Nat := natToBits 52 1023 n

/-- Rust `x as f64` for signed `x` (bit pattern). -/
def intToF64 (x : Int) : Nat :=
  if x < 0 then 2 ^ 63 + natToF64 (-x).toNat else natToF64 x.toNat

/-- Rust `n as f32` for unsigned `n` (bit pattern). -/
def natToF32 (n : Nat) : Nat := natToBits 23 127 n

/-- Rust `v as f64` for `v : f32` (a lossless widening on bit patterns,
including subnormals and NaN payloads). -/
def f32ToF64 (b : Nat) : Nat :=
  let s := b / 2 ^ 31 % 2
  let e := b / 2 ^ 23 % 2 ^ 8
  let m := b % 2 ^ 23
  let sgn := s * 2 ^ 63
  if e = 255 then sgn + 2047 * 2 ^ 52 + m * 2 ^ 29
  else if e = 0 then
    if m = 0 then sgn
    else
      let k := Nat.log2 m
      sgn + (1023 + k - 149) * 2 ^ 52 + (m - 2 ^ k) * 2 ^ (52 - k)
  else sgn + (e - 127 + 1023) * 2 ^ 52 + m * 2 ^ 29

/-- The bit pattern is an IEEE-754 single NaN. -/
def isNaN32 (b : Nat) : Bool := b / 2 ^ 23 % 2 ^ 8 = 255 ∧ b % 2 ^ 23 ≠ 0

/-- The bit pattern is an IEEE-754 double NaN. -/
def isNaN64 (b : Nat) : Bool := b / 2 ^ 52 % 2 ^ 11 = 2047 ∧ b % 2 ^ 52 ≠ 0

/-- The bit pattern is `+0.0f32` or `-0.0f32` (Rust `v == 0.0` holds exactly
for these two patterns). -/
def isZero32 (b : Nat) : Bool := b % 2 ^ 31 = 0

/-- The bit pattern is `+0.0f64` or `-0.0f64`. -/
def isZero64 (b : Nat) : Bool := b % 2 ^ 63 = 0

/-- Bit pattern of `1.0f32`. -/
def oneF32 : Nat := 0x3F800000

/-- Bit pattern of `1.0f64`. -/
def oneF64 : Nat := 0x3FF0000000000000

/-- Rust `==` on two `f32` bit patterns: false when either is NaN, both
zeroes compare equal, otherwise bit equality. -/
def f32Eq (a b : Nat) : Bool :=
  ¬ isNaN32 a ∧ ¬ isNaN32 b ∧ (a = b ∨ (isZero32 a ∧ isZero32 b))

/-- Rust `==` on two `f64` bit patterns. -/
def f64Eq (a b : Nat) : Bool :=
  ¬ isNaN64 a ∧ ¬ isNaN64 b ∧ (a = b ∨ (isZero64 a ∧ isZero64 b))

/-- Signed key reflecting the IEEE-754 total order of non-NaN doubles with
both zeroes identified: `f64` comparison order equals the order of this key. -/
def f64Key (b : Nat) : Int :=
  if b / 2 ^ 63 = 1 then -(b % 2 ^ 63 : Nat) else (b % 2 ^ 63 : Nat)

/-- Rust `PartialOrd::partial_cmp` on two `f64` bit patterns. -/
def f64Cmp (a b : Nat) : Option Ordering :=
  if isNaN64 a ∨ isNaN64 b then none else some (compare (f64Key a) (f64Key b))

/-! ## `ReadBuffer` and errors -/

/-- `ReadBuffer`: the remaining byte slice (the `bytes::Buf` cursor advances
through it) and the `head` offset counter the source maintains alongside. -/
structure RBuf where
  bytes : List Nat
  head : Nat
deriving DecidableEq, Repr

/-- `ReadBonErr` of the source. -/
inductive ReadBonErr where
  | overflow (tryIndex len : Nat)
  | typeNoMatch (tryRead : String) (actType : String × Nat) (head : Nat)
  | other (msg : String)
  | isContainer (t : Nat)
deriving DecidableEq, Repr

/-- A failure of a modelled Rust computation: either a Rust panic (from the
`bytes` crate on underflow, from `unwrap`/`expect`, or from debug-profile
arithmetic) or a returned `ReadBonErr`. -/
inductive RErr where
  | panic
  | bon (e : ReadBonErr)
deriving DecidableEq, Repr

/-- Result of a fallible read: Rust methods take `&mut self`, so mutations
made before an error persist — the error also carries the buffer state. -/
abbrev Res (α : Type) := Except (RErr × RBuf) (α × RBuf)

/-- Map over the value of a successful result. -/
def mapRes {α β : Type} (f : α → β) : Res α → Res β
  | .error e => .error e
  | .ok (a, s) => .ok (f a, s)

/-- The friendly tag name used in `ReadBonErr::type_no_match`. -/
def typeName (t : Nat) : String :=
  if t = 0 then ("null") else if t = 1 then ("false") else if t = 2 then ("true")
  else if t = 3 then ("0.0") else if t = 4 then ("1.0")
  else if t < 9 then ("float") else if t < 15 then ("int")
  else if t = 15 then ("-1") else if t < 36 then Nat.repr (t - 16)
  else if t < 42 then ("uint") else if t < 111 then ("string")
  else if t < 180 then ("bin") else if t < 249 then ("container")
  else ("invalid type")

/-- `ReadBonErr::type_no_match`. -/
def mkTypeNoMatch (tryRead : String) (t : Nat) (head : Nat) : ReadBonErr :=
  .typeNoMatch tryRead (typeName t, t) head

/-! ## `bytes::Buf` primitives on the remaining slice -/

/-- `Buf::get_u8`: consume one byte; panics when none remain. -/
def getU8 : RBuf → Res Nat
  | ⟨b0 :: rest, h⟩ => .ok (b0, ⟨rest, h⟩)
  | s => .error (.panic, s)

/-- `Buf::get_u16_le` (and, on this little-endian target, `get_u16_ne`). -/
def getU16le : RBuf → Res Nat
  | ⟨b0 :: b1 :: rest, h⟩ => .ok (b0 + 2 ^ 8 * b1, ⟨rest, h⟩)
  | s => .error (.panic, s)

/-- `Buf::get_u32_le` (and, on this little-endian target, `get_u32_ne`). -/
def getU32le : RBuf → Res Nat
  | ⟨b0 :: b1 :: b2 :: b3 :: rest, h⟩ =>
      .ok (b0 + 2 ^ 8 * b1 + 2 ^ 16 * b2 + 2 ^ 24 * b3, ⟨rest, h⟩)
  | s => .error (.panic, s)

/-- `Buf::get_u64_le`. -/
def getU64le : RBuf → Res Nat
  | ⟨b0 :: b1 :: b2 :: b3 :: b4 :: b5 :: b6 :: b7 :: rest, h⟩ =>
      .ok (b0 + 2 ^ 8 * b1 + 2 ^ 16 * b2 + 2 ^ 24 * b3 + 2 ^ 32 * b4 +
        2 ^ 40 * b5 + 2 ^ 48 * b6 + 2 ^ 56 * b7, ⟨rest, h⟩)
  | s => .error (.panic, s)

/-- `Buf::get_u128_le`. -/
def getU128le : RBuf → Res Nat
  | ⟨b0 :: b1 :: b2 :: b3 :: b4 :: b5 :: b6 :: b7 ::
     b8 :: b9 :: b10 :: b11 :: b12 :: b13 :: b14 :: b15 :: rest, h⟩ =>
      .ok (b0 + 2 ^ 8 * b1 + 2 ^ 16 * b2 + 2 ^ 24 * b3 + 2 ^ 32 * b4 +
        2 ^ 40 * b5 + 2 ^ 48 * b6 + 2 ^ 56 * b7 + 2 ^ 64 * b8 +
        2 ^ 72 * b9 + 2 ^ 80 * b10 + 2 ^ 88 * b11 + 2 ^ 96 * b12 +
        2 ^ 104 * b13 + 2 ^ 112 * b14 + 2 ^ 120 * b15, ⟨rest, h⟩)
  | s => .error (.panic, s)

/-- `Buf::advance`: drop `n` bytes; panics when fewer remain. -/
def advanceBy (n : Nat) (s : RBuf) : Res Unit :=
  if n ≤ s.bytes.length then .ok ((), ⟨s.bytes.drop n, s.head⟩)
  else .error (.panic, s)

/-- `Buf::copy_to_bytes`: consume and return `n` bytes; panics when fewer
remain. -/
def copyToBytes (n : Nat) (s : RBuf) : Res (List Nat) :=
  if n ≤ s.bytes.length then .ok (s.bytes.take n, ⟨s.bytes.drop n, s.head⟩)
  else .error (.panic, s)

/-! ## `ReadBuffer` typed reads -/

/-- `ReadBuffer::probe_border`: `Overflow` when fewer than `n` bytes remain. -/
def probeBorder (n : Nat) (s : RBuf) : Res Unit :=
  if n > s.bytes.length then .error (.bon (.overflow n s.bytes.length), s)
  else .ok ((), s)

/-- `ReadBuffer::get_type`: probe, then consume the tag byte (`head` is not
updated — exactly as in the source). -/
def getType (s : RBuf) : Res Nat :=
  match probeBorder 1 s with
  | .error e => .error e
  | .ok (_, s) => getU8 s

/-- `ReadBuffer::get_type_chunk`: probe, then peek the tag byte without
consuming. -/
def getTypeChunk (s : RBuf) : Res Nat :=
  match probeBorder 1 s with
  | .error e => .error e
  | .ok (_, s) =>
    match s.bytes with
    | t :: _ => .ok (t, s)
    | [] => .error (.panic, s)

/-- `ReadBuffer::read_bool`. -/
def readBool (s : RBuf) : Res Bool :=
  match probeBorder 1 s with
  | .error e => .error e
  | .ok (_, s) =>
  match getU8 s with
  | .error e => .error e
  | .ok (t, s) =>
    let s := { s with head := s.head + 1 }
    if t = 1 then .ok (false, s)
    else if t = 2 then .ok (true, s)
    else .error (.bon (mkTypeNoMatch ("bool") t (s.head - 1)), s)

/-- `ReadBuffer::read_integer::<T>`: `cast` is the composite of the arm's
`T::from` conversion (`cast` receives the exact mathematical value of the
arm's expression; expressions that can wrap for type-correct inputs — the
`u64 as i64` / `u128 as i128` negations of tags 13 and 14 — wrap explicitly
below). -/
def readInteger (cast : Int → Int) (s : RBuf) : Res Int :=
  match probeBorder 1 s with
  | .error e => .error e
  | .ok (_, s) =>
  match getU8 s with
  | .error e => .error e
  | .ok (t, s) =>
  let s := { s with head := s.head + 1 }
  if 15 ≤ t ∧ t ≤ 35 then .ok (cast ((t : Int) - 16), s)
  else if t = 9 then
    let s := { s with head := s.head + 1 }
    mapRes (fun (v : Nat) => cast (-(v : Int))) (getU8 s)
  else if t = 10 then
    let s := { s with head := s.head + 2 }
    mapRes (fun (v : Nat) => cast (-(v : Int))) (getU16le s)
  else if t = 11 then
    let s := { s with head := s.head + 4 }
    mapRes (fun (v : Nat) => cast (-(v : Int))) (getU32le s)
  else if t = 12 then
    let s := { s with head := s.head + 6 }
    match getU16le s with
    | .error e => .error e
    | .ok (lo, s) =>
      mapRes (fun (hi : Nat) => cast (-(lo : Int) - (hi : Int) * 2 ^ 16)) (getU32le s)
  else if t = 13 then
    let s := { s with head := s.head + 8 }
    mapRes (fun (v : Nat) => cast (toI 64 (-(toI 64 (v : Int))))) (getU64le s)
  else if t = 14 then
    let s := { s with head := s.head + 16 }
    mapRes (fun (v : Nat) => cast (toI 128 (-(toI 128 (v : Int))))) (getU128le s)
  else if t = 36 then
    let s := { s with head := s.head + 1 }
    mapRes (fun (v : Nat) => cast (v : Int)) (getU8 s)
  else if t = 37 then
    let s := { s with head := s.head + 2 }
    mapRes (fun (v : Nat) => cast (v : Int)) (getU16le s)
  else if t = 38 then
    let s := { s with head := s.head + 4 }
    mapRes (fun (v : Nat) => cast (v : Int)) (getU32le s)
  else if t = 39 then
    let s := { s with head := s.head + 6 }
    match getU16le s with
    | .error e => .error e
    | .ok (lo, s) =>
      mapRes (fun (hi : Nat) => cast ((lo : Int) + (hi : Int) * 2 ^ 16)) (getU32le s)
  else if t = 40 then
    let s := { s with head := s.head + 8 }
    mapRes (fun (v : Nat) => cast (v : Int)) (getU64le s)
  else if t = 41 then
    -- the source advances `head` by only 8 here although 16 bytes are read
    let s := { s with head := s.head + 8 }
    mapRes (fun (v : Nat) => cast (v : Int)) (getU128le s)
  else .error (.bon (mkTypeNoMatch ("integer") t (s.head - 1)), s)

/-- `ReadBuffer::read_u8` (`read_integer::<u32>` then `as u8`). -/
def readU8 (s : RBuf) : Res Int := mapRes (toU 8) (readInteger (toU 32) s)

/-- `ReadBuffer::read_u16`. -/
def readU16 (s : RBuf) : Res Int := mapRes (toU 16) (readInteger (toU 32) s)

/-- `ReadBuffer::read_u32`. -/
def readU32 (s : RBuf) : Res Int := readInteger (toU 32) s

/-- `ReadBuffer::read_u64`. -/
def readU64 (s : RBuf) : Res Int := readInteger (toU 64) s

/-- `ReadBuffer::read_u128`. -/
def readU128 (s : RBuf) : Res Int := readInteger (toU 128) s

/-- `ReadBuffer::read_i8` (`read_integer::<i32>` then `as i8`). -/
def readI8 (s : RBuf) : Res Int := mapRes (toI 8) (readInteger (toI 32) s)

/-- `ReadBuffer::read_i16`. -/
def readI16 (s : RBuf) : Res Int := mapRes (toI 16) (readInteger (toI 32) s)

/-- `ReadBuffer::read_i32`. -/
def readI32 (s : RBuf) : Res Int := readInteger (toI 32) s

/-- `ReadBuffer::read_i64`. -/
def readI64 (s : RBuf) : Res Int := readInteger (toI 64) s

/-- `ReadBuffer::read_i128`. -/
def readI128 (s : RBuf) : Res Int := readInteger (toI 128) s

/-- `ReadBuffer::read_f32` (result is the `f32` bit pattern).  Note the
source's `5..7` arm: the reserved 16-bit-float tag 5 is decoded as a 4-byte
float. -/
def readF32 (s : RBuf) : Res Nat :=
  match probeBorder 1 s with
  | .error e => .error e
  | .ok (_, s) =>
  match getU8 s with
  | .error e => .error e
  | .ok (t, s) =>
  let s := { s with head := s.head + 1 }
  if t = 3 then .ok (0, s)
  else if t = 4 then .ok (oneF32, s)
  else if 5 ≤ t ∧ t < 7 then
    match probeBorder 4 s with
    | .error e => .error e
    | .ok (_, s) =>
      let s := { s with head := s.head + 4 }
      getU32le s
  else
    let s := { s with head := s.head - 1 }
    match readInteger (toU 32) s with
    | .ok (r, s) => .ok (natToF32 r.toNat, s)
    | .error (.panic, s1) => .error (.panic, s1)
    | .error (.bon _, s1) =>
        .error (.bon (mkTypeNoMatch ("f32") t (s1.head - 1)), s1)

/-- `ReadBuffer::read_f64` (result is the `f64` bit pattern). -/
def readF64 (s : RBuf) : Res Nat :=
  match probeBorder 1 s with
  | .error e => .error e
  | .ok (_, s) =>
  match getU8 s with
  | .error e => .error e
  | .ok (t, s) =>
  let s := { s with head := s.head + 1 }
  if t = 3 then .ok (0, s)
  else if t = 4 then .ok (oneF64, s)
  else if t = 6 then
    match probeBorder 4 s with
    | .error e => .error e
    | .ok (_, s) =>
      let s := { s with head := s.head + 4 }
      mapRes f32ToF64 (getU32le s)
  else if t = 7 then
    match probeBorder 8 s with
    | .error e => .error e
    | .ok (_, s) =>
      let s := { s with head := s.head + 8 }
      getU64le s
  else
    let s := { s with head := s.head - 1 }
    match readInteger (toU 64) s with
    | .ok (r, s) => .ok (natToF64 r.toNat, s)
    | .error (.panic, s1) => .error (.panic, s1)
    | .error (.bon _, s1) =>
        .error (.bon (mkTypeNoMatch ("f64") t (s1.head - 1)), s1)

/-- `ReadBuffer::read_lengthen`.  The 2- and 4-byte branches subtract the
bias in `u32` arithmetic (wrapping, hence the `toU 32`) from a value read in
native byte order — little-endian on this target. -/
def readLengthen (s : RBuf) : Res Nat :=
  match probeBorder 1 s with
  | .error e => .error e
  | .ok (_, s) =>
  match getTypeChunk s with
  | .error e => .error e
  | .ok (t, s) =>
  if t < 0x80 then
    let s := { s with head := s.head + 1 }
    match advanceBy 1 s with
    | .error e => .error e
    | .ok (_, s) => .ok (t, s)
  else if t < 0xC0 then
    let s := { s with head := s.head + 2 }
    mapRes (fun (v : Nat) => (toU 32 ((v : Int) - 0x8000)).toNat) (getU16le s)
  else if t < 0xE0 then
    let s := { s with head := s.head + 4 }
    mapRes (fun (v : Nat) => (toU 32 ((v : Int) - 0xC0000000)).toNat) (getU32le s)
  else
    -- diagnostic `self.head - 1` may underflow in the source; modelled with
    -- truncated subtraction
    .error (.bon (mkTypeNoMatch ("lengthen") t (s.head - 1)), s)

/-- Chain a step that yields a value and the updated buffer into the next
step (the sequencing implicit in Rust's `;` on `&mut self` methods). -/
def bindRes {α β : Type} : Res α → (α → RBuf → Res β) → Res β
  | .error e, _ => .error e
  | .ok (a, s), f => f a s

/-- The length computation of `ReadBuffer::read_bin_inner` (its `match t`).
The 6-byte-length arm 179 multiplies in `u32` arithmetic, which wraps. -/
def binLenStep (t : Nat) (s : RBuf) : Res Nat :=
    if 111 ≤ t ∧ t ≤ 175 then .ok (t - 111, { s with head := s.head + (t - 111) })
    else if t = 176 then
      match getU8 s with
      | .error e => .error e
      | .ok (l, s) => .ok (l, { s with head := s.head + l + 1 })
    else if t = 177 then
      match getU16le s with
      | .error e => .error e
      | .ok (l, s) => .ok (l, { s with head := s.head + l + 2 })
    else if t = 178 then
      match getU32le s with
      | .error e => .error e
      | .ok (l, s) => .ok (l, { s with head := s.head + l + 4 })
    else if t = 179 then
      match getU16le s with
      | .error e => .error e
      | .ok (lo, s) =>
        match getU32le s with
        | .error e => .error e
        | .ok (hi, s) =>
          let l := lo + (toU 32 ((hi : Int) * 0x10000)).toNat
          .ok (l, { s with head := s.head + l + 6 })
    else .error (.bon (mkTypeNoMatch ("bin") t (s.head - 1)), s)

/-- `ReadBuffer::read_bin_inner`: length step, then the payload copy. -/
def readBinInner (t : Nat) (s : RBuf) : Res (List Nat) :=
  bindRes (binLenStep t s) copyToBytes

/-- `ReadBuffer::read_bin`. -/
def readBin (s : RBuf) : Res (List Nat) :=
  match probeBorder 1 s with
  | .error e => .error e
  | .ok (_, s) =>
  match getU8 s with
  | .error e => .error e
  | .ok (t, s) => readBinInner t ({ s with head := s.head + 1 })

/-- The length computation of `ReadBuffer::read_utf8_inner` (its `match t`). -/
def utf8LenStep (t : Nat) (s : RBuf) : Res Nat :=
    if 42 ≤ t ∧ t ≤ 106 then .ok (t - 42, { s with head := s.head + (t - 42) })
    else if t = 107 then
      match getU8 s with
      | .error e => .error e
      | .ok (l, s) => .ok (l, { s with head := s.head + l + 1 })
    else if t = 108 then
      match getU16le s with
      | .error e => .error e
      | .ok (l, s) => .ok (l, { s with head := s.head + l + 2 })
    else if t = 109 then
      match getU32le s with
      | .error e => .error e
      | .ok (l, s) => .ok (l, { s with head := s.head + l + 4 })
    else if t = 110 then
      match getU16le s with
      | .error e => .error e
      | .ok (lo, s) =>
        match getU32le s with
        | .error e => .error e
        | .ok (hi, s) =>
          let l := lo + (toU 32 ((hi : Int) * 0x10000)).toNat
          .ok (l, { s with head := s.head + l + 6 })
    else .error (.bon (mkTypeNoMatch ("string") t (s.head - 1)), s)

/-- `ReadBuffer::read_utf8_inner`: length step, then the payload copy.  The
result is the byte payload handed to `String::from_utf8_lossy`; on valid
UTF-8 that conversion is the identity on the byte content, so strings are
represented here by their UTF-8 bytes. -/
def readUtf8Inner (t : Nat) (s : RBuf) : Res (List Nat) :=
  bindRes (utf8LenStep t s) copyToBytes

/-- `ReadBuffer::read_utf8`. -/
def readUtf8 (s : RBuf) : Res (List Nat) :=
  match probeBorder 1 s with
  | .error e => .error e
  | .ok (_, s) =>
  match getU8 s with
  | .error e => .error e
  | .ok (t, s) => readUtf8Inner t ({ s with head := s.head + 1 })

/-- The `EnumValue` sum returned by the generic `read`.  Numeric payloads are
mathematical values (`Nat`/`Int`), floats are bit patterns, strings are their
UTF-8 bytes.  The `Arr`/`Map`/`Struct` variants of the source are never
constructed by any function modelled here and are omitted. -/
inductive EnumValue where
  | Void
  | Bool (b : Bool)
  | U8 (v : Nat)
  | U16 (v : Nat)
  | U32 (v : Nat)
  | U64 (v : Nat)
  | U128 (v : Nat)
  | I8 (v : Int)
  | I16 (v : Int)
  | I32 (v : Int)
  | I64 (v : Int)
  | I128 (v : Int)
  | F32 (bits : Nat)
  | F64 (bits : Nat)
  | Str (utf8 : List Nat)
  | Bin (bytes : List Nat)
deriving DecidableEq, Repr

/-- The generic `ReadBuffer::read`.  (The source's match arms are on disjoint
tag values/ranges, so the ascending if-chain below selects the same arm.) -/
def readNext (s : RBuf) : Res EnumValue :=
  match probeBorder 1 s with
  | .error e => .error e
  | .ok (_, s) =>
  match getU8 s with
  | .error e => .error e
  | .ok (first, s) =>
  let s := { s with head := s.head + 1 }
  if first = 0 then .ok (.Void, s)
  else if first = 1 then .ok (.Bool false, s)
  else if first = 2 then .ok (.Bool true, s)
  else if first = 3 then .ok (.F32 0, s)
  else if first = 4 then .ok (.F32 oneF32, s)
  else if first = 5 then .error (.bon (.other ("16-bit float unsupported")), s)
  else if first = 6 then
    let s := { s with head := s.head + 4 }
    mapRes (fun v => EnumValue.F32 v) (getU32le s)
  else if first = 7 then
    let s := { s with head := s.head + 8 }
    mapRes (fun v => EnumValue.F64 v) (getU64le s)
  else if first = 8 then .error (.bon (.other ("128-bit float unsupported")), s)
  else if first = 9 then
    let s := { s with head := s.head + 1 }
    mapRes (fun (v : Nat) => EnumValue.I16 (-(v : Int))) (getU8 s)
  else if first = 10 then
    let s := { s with head := s.head + 2 }
    mapRes (fun (v : Nat) => EnumValue.I32 (-(v : Int))) (getU16le s)
  else if first = 11 then
    let s := { s with head := s.head + 4 }
    mapRes (fun (v : Nat) => EnumValue.I64 (-(v : Int))) (getU32le s)
  else if first = 12 then
    let s := { s with head := s.head + 6 }
    match getU16le s with
    | .error e => .error e
    | .ok (lo, s) =>
      mapRes (fun (hi : Nat) => EnumValue.F64 (intToF64 (-(lo : Int) - (hi : Int) * 2 ^ 16)))
        (getU32le s)
  else if first = 13 then
    let s := { s with head := s.head + 8 }
    mapRes (fun (v : Nat) => EnumValue.I64 (toI 64 (-(toI 64 (v : Int))))) (getU64le s)
  else if first = 14 then
    let s := { s with head := s.head + 16 }
    mapRes (fun (v : Nat) => EnumValue.I128 (toI 128 (-(toI 128 (v : Int))))) (getU128le s)
  else if first = 15 then .ok (.I8 (-1), s)
  else if first < 36 then .ok (.U8 (first - 16), s)
  else if first = 36 then
    let s := { s with head := s.head + 1 }
    mapRes (fun v => EnumValue.U8 v) (getU8 s)
  else if first = 37 then
    let s := { s with head := s.head + 2 }
    mapRes (fun v => EnumValue.U16 v) (getU16le s)
  else if first = 38 then
    let s := { s with head := s.head + 4 }
    mapRes (fun v => EnumValue.U32 v) (getU32le s)
  else if first = 39 then
    let s := { s with head := s.head + 6 }
    match getU16le s with
    | .error e => .error e
    | .ok (lo, s) =>
      mapRes (fun (hi : Nat) => EnumValue.F64 (natToF64 (lo + hi * 2 ^ 16))) (getU32le s)
  else if first = 40 then
    let s := { s with head := s.head + 8 }
    mapRes (fun v => EnumValue.U64 v) (getU64le s)
  else if first = 41 then
    let s := { s with head := s.head + 16 }
    mapRes (fun v => EnumValue.U128 v) (getU128le s)
  else if first < 111 then mapRes (fun l => EnumValue.Str l) (readUtf8Inner first s)
  else if first < 180 then mapRes (fun l => EnumValue.Bin l) (readBinInner first s)
  else if 245 ≤ first ∧ first < 249 then .error (.bon (.isContainer first), s)
  else .error (.bon (.other ("Unexpected type: " ++ Nat.repr first)), s)

/-! ## `WriteBuffer` -/

/-- `WriteBuffer`: the written bytes, the `tail` counter the source maintains
alongside, and the vector capacity (tracked because `write_container` reads
it). -/
structure WBuf where
  bytes : List Nat
  tail : Nat
  cap : Nat
deriving DecidableEq, Repr

/-- `WriteBuffer::new` (`Vec::new` has capacity 0). -/
def wbNew : WBuf := ⟨[], 0, 0⟩

/-- `WriteBuffer::extend_capity`.  `Vec::reserve`/`reserve_exact` guarantee
capacity at least `len + additional`; growth beyond that minimum is allocator
policy, modelled as the amortised doubling the source comments describe. -/
def extendCapity (w : WBuf) (len : Nat) : WBuf :=
  if w.cap > 4194304 then { w with cap := max w.cap (w.bytes.length + 2 * len) }
  else { w with cap := max (2 * w.cap) (w.bytes.length + len) }

/-- `WriteBuffer::try_extend_capity`. -/
def tryExtendCapity (w : WBuf) (len : Nat) : WBuf :=
  if w.bytes.length + len > w.cap then extendCapity w len else w

/-- The byte list stored by `BufMut::put_uN_le` for the low `numBytes` bytes
of `v` (least significant first): the source always casts its argument to the
matching width first (`v as u16`, …), which this masking composite
reproduces. -/
def leB : Nat → Nat → List Nat
  | 0, _ => []
  | numBytes + 1, v => v % 2 ^ 8 :: leB numBytes (v / 2 ^ 8)

/-- `WriteBuffer::write_8`. -/
def write_8 (w : WBuf) (v t : Nat) : WBuf :=
  let w := tryExtendCapity w 2
  { w with bytes := w.bytes ++ [t] ++ leB 1 v, tail := w.tail + 2 }

/-- `WriteBuffer::write_16` (little-endian payload). -/
def write_16 (w : WBuf) (v t : Nat) : WBuf :=
  let w := tryExtendCapity w 3
  { w with bytes := w.bytes ++ [t] ++ leB 2 v, tail := w.tail + 3 }

/-- `WriteBuffer::write_32`. -/
def write_32 (w : WBuf) (v t : Nat) : WBuf :=
  let w := tryExtendCapity w 5
  { w with bytes := w.bytes ++ [t] ++ leB 4 v, tail := w.tail + 5 }

/-- `WriteBuffer::write_48`: low 16 bits as a little-endian `u16`, then the
high part (`v >> 16`) as a little-endian `u32`. -/
def write_48 (w : WBuf) (v t : Nat) : WBuf :=
  let w := tryExtendCapity w 7
  { w with
      bytes := w.bytes ++ [t] ++ leB 2 (v % 2 ^ 16) ++ leB 4 (v / 2 ^ 16),
      tail := w.tail + 7 }

/-- `WriteBuffer::write_64`. -/
def write_64 (w : WBuf) (v t : Nat) : WBuf :=
  let w := tryExtendCapity w 9
  { w with bytes := w.bytes ++ [t] ++ leB 8 v, tail := w.tail + 9 }

/-- `WriteBuffer::write_128`. -/
def write_128 (w : WBuf) (v t : Nat) : WBuf :=
  let w := tryExtendCapity w 17
  { w with bytes := w.bytes ++ [t] ++ leB 16 v, tail := w.tail + 17 }

/-- `WriteBuffer::write_common`: the single-byte tag `(v + 16) as u8` for the
common range `-1..19`. -/
def write_common (w : WBuf) (v : Int) : WBuf :=
  let w := tryExtendCapity w 1
  { w with bytes := w.bytes ++ [(toU 8 (v + 16)).toNat], tail := w.tail + 1 }

/-- `WriteBuffer::writei_32`. -/
def writei_32 (w : WBuf) (v t : Nat) : WBuf :=
  if v ≤ 0x7F then write_8 w v t
  else if v ≤ 0x7FFF then write_16 w v (t + 1)
  else write_32 w v (t + 2)

/-- `WriteBuffer::writei_64`. -/
def writei_64 (w : WBuf) (v t : Nat) : WBuf :=
  if v ≤ 0x7FFFFFFFFFFF then write_48 w v (t + 3)
  else write_64 w v (t + 4)

/-- `WriteBuffer::writeu_32`. -/
def writeu_32 (w : WBuf) (v : Nat) : WBuf :=
  if v ≤ 0xFF then write_8 w v 36
  else if v ≤ 0xFFFF then write_16 w v 37
  else write_32 w v 38

/-- `WriteBuffer::writeu_64`. -/
def writeu_64 (w : WBuf) (v : Nat) : WBuf :=
  if v ≤ 0xFFFFFFFFFFFF then write_48 w v 39
  else write_64 w v 40

/-- `WriteBuffer::write_int32`.  The magnitude negation `v = -v` wraps at
`i32::MIN` (release profile), hence the `toI 32`. -/
def write_int32 (w : WBuf) (v : Int) : WBuf :=
  if -1 ≤ v ∧ v < 20 then write_common w v
  else
    let t : Nat := if v < 0 then 9 else 36
    let v1 : Int := if v < 0 then toI 32 (-v) else v
    writei_32 w (toU 32 v1).toNat t

/-- `WriteBuffer::write_int64` (negation wraps at `i64::MIN`). -/
def write_int64 (w : WBuf) (v : Int) : WBuf :=
  if -1 ≤ v ∧ v < 20 then write_common w v
  else
    let t : Nat := if v < 0 then 9 else 36
    let v1 : Int := if v < 0 then toI 64 (-v) else v
    if v1 ≤ 0x7FFFFFFF then writei_32 w (toU 32 v1).toNat t
    else writei_64 w (toU 64 v1).toNat t

/-- `WriteBuffer::write_int128` (negation wraps at `i128::MIN`). -/
def write_int128 (w : WBuf) (v : Int) : WBuf :=
  if -1 ≤ v ∧ v < 20 then write_common w v
  else
    let t : Nat := if v < 0 then 9 else 36
    let v1 : Int := if v < 0 then toI 128 (-v) else v
    if v1 ≤ 0x7FFFFFFF then writei_32 w (toU 32 v1).toNat t
    else if v1 ≤ 0x7FFFFFFFFFFFFFFF then writei_64 w (toU 64 v1).toNat t
    else write_128 w (toU 128 v1).toNat (t + 5)

/-- `WriteBuffer::write_uint32`. -/
def write_uint32 (w : WBuf) (v : Nat) : WBuf :=
  if v < 20 then write_common w (v : Int) else writeu_32 w v

/-- `WriteBuffer::write_uint64`. -/
def write_uint64 (w : WBuf) (v : Nat) : WBuf :=
  if v < 20 then write_common w (v : Int)
  else if v ≤ 0xFFFFFFFF then writeu_32 w v
  else writeu_64 w v

/-- `WriteBuffer::write_uint128`. -/
def write_uint128 (w : WBuf) (v : Nat) : WBuf :=
  if v < 20 then write_common w (v : Int)
  else if v ≤ 0xFFFFFFFF then writeu_32 w v
  else if v ≤ 0xFFFFFFFFFFFF then writeu_64 w v
  else write_128 w v 41

/-- `WriteBuffer::write_u8` … `write_u128` (widening casts are exact). -/
def write_u8 (w : WBuf) (v : Nat) : WBuf := write_uint32 w v

/-- `WriteBuffer::write_u16`. -/
def write_u16 (w : WBuf) (v : Nat) : WBuf := write_uint32 w v

/-- `WriteBuffer::write_u32`. -/
def write_u32 (w : WBuf) (v : Nat) : WBuf := write_uint32 w v

/-- `WriteBuffer::write_u64`. -/
def write_u64 (w : WBuf) (v : Nat) : WBuf := write_uint64 w v

/-- `WriteBuffer::write_u128`. -/
def write_u128 (w : WBuf) (v : Nat) : WBuf := write_uint128 w v

/-- `WriteBuffer::write_i8` … `write_i128`. -/
def write_i8 (w : WBuf) (v : Int) : WBuf := write_int32 w v

/-- `WriteBuffer::write_i16`. -/
def write_i16 (w : WBuf) (v : Int) : WBuf := write_int32 w v

/-- `WriteBuffer::write_i32`. -/
def write_i32 (w : WBuf) (v : Int) : WBuf := write_int32 w v

/-- `WriteBuffer::write_i64`. -/
def write_i64 (w : WBuf) (v : Int) : WBuf := write_int64 w v

/-- `WriteBuffer::write_i128`. -/
def write_i128 (w : WBuf) (v : Int) : WBuf := write_int128 w v

/-- `WriteBuffer::write_nil`. -/
def write_nil (w : WBuf) : WBuf :=
  let w := tryExtendCapity w 1
  { w with bytes := w.bytes ++ [0], tail := w.tail + 1 }

/-- `WriteBuffer::write_bool`. -/
def write_bool (w : WBuf) (v : Bool) : WBuf :=
  let w := tryExtendCapity w 1
  { w with bytes := w.bytes ++ [if v then 2 else 1], tail := w.tail + 1 }

/-- `WriteBuffer::write_f32` on the IEEE bit pattern (`v == 0.0` accepts both
zeroes, `v == 1.0` only the exact pattern). -/
def write_f32 (w : WBuf) (bits : Nat) : WBuf :=
  if isZero32 bits then
    let w := tryExtendCapity w 1
    { w with bytes := w.bytes ++ [3], tail := w.tail + 1 }
  else if bits = oneF32 then
    let w := tryExtendCapity w 1
    { w with bytes := w.bytes ++ [4], tail := w.tail + 1 }
  else
    let w := tryExtendCapity w 5
    { w with bytes := w.bytes ++ [6] ++ leB 4 bits, tail := w.tail + 5 }

/-- `WriteBuffer::write_f64`. -/
def write_f64 (w : WBuf) (bits : Nat) : WBuf :=
  if isZero64 bits then
    let w := tryExtendCapity w 1
    { w with bytes := w.bytes ++ [3], tail := w.tail + 1 }
  else if bits = oneF64 then
    let w := tryExtendCapity w 1
    { w with bytes := w.bytes ++ [4], tail := w.tail + 1 }
  else
    let w := tryExtendCapity w 9
    { w with bytes := w.bytes ++ [7] ++ leB 8 bits, tail := w.tail + 9 }

/-- `WriteBuffer::write_lengthen`.  The 2- and 4-byte branches store the
biased value with `put_u16_ne`/`put_u32_ne` — little-endian on this target,
so the low byte (not the marker bits) comes first on the wire. -/
def write_lengthen (w : WBuf) (t : Nat) : Except ReadBonErr WBuf :=
  if t < 0x80 then
    let w := tryExtendCapity w 1
    .ok { w with bytes := w.bytes ++ leB 1 t, tail := w.tail + 1 }
  else if t < 0x4000 then
    let w := tryExtendCapity w 2
    .ok { w with bytes := w.bytes ++ leB 2 (0x8000 + t), tail := w.tail + 2 }
  else if t < 0x20000000 then
    let w := tryExtendCapity w 4
    .ok { w with bytes := w.bytes ++ leB 4 (0xC0000000 + t), tail := w.tail + 4 }
  else .error (.other ("Invalid lengthen: " ++ Nat.repr t))

/-- `WriteBuffer::write_data` (strings use `t = 42`, binary `t = 111`).  In
the final branch the source writes the tag value, not the length, as the
8-byte length prefix. -/
def write_data (w : WBuf) (arr : List Nat) (t : Nat) : WBuf :=
  let length := arr.length
  let w :=
    if length ≤ 64 then
      let w := tryExtendCapity w (1 + length)
      { w with bytes := w.bytes ++ [t + length], tail := w.tail + 1 }
    else if length ≤ 0xff then
      let w := tryExtendCapity w (2 + length)
      { w with bytes := w.bytes ++ [t + 65] ++ leB 1 length, tail := w.tail + 2 }
    else if length ≤ 0xffff then
      let w := tryExtendCapity w (3 + length)
      { w with bytes := w.bytes ++ [t + 66] ++ leB 2 length, tail := w.tail + 3 }
    else if length ≤ 0xffffffff then
      let w := tryExtendCapity w (5 + length)
      { w with bytes := w.bytes ++ [t + 67] ++ leB 4 length, tail := w.tail + 5 }
    else if length ≤ 0xffffffffffff then
      let w := tryExtendCapity w (7 + length)
      { w with
          bytes := w.bytes ++ [t + 68] ++ leB 2 (length % 2 ^ 16) ++ leB 4 (length / 2 ^ 16),
          tail := w.tail + 7 }
    else
      let w := tryExtendCapity w (9 + length)
      { w with bytes := w.bytes ++ [t + 69] ++ leB 8 t, tail := w.tail + 9 }
  { w with bytes := w.bytes ++ arr, tail := w.tail + length }

/-- `WriteBuffer::write_utf8` (the argument is the string's UTF-8 bytes). -/
def write_utf8 (w : WBuf) (sBytes : List Nat) : WBuf := write_data w sBytes 42

/-- `WriteBuffer::write_bin` over an index range of the input. -/
def write_bin (w : WBuf) (arr : List Nat) (rstart rend : Nat) : WBuf :=
  write_data w ((arr.drop rstart).take (rend - rstart)) 111

/-- `move_part`: in-place overlapping byte copy of `bytes[rstart..rend]` to
offset `offset` (the `ptr::copy` is memmove).  When `set_len` logically
extends the vector the fresh positions hold unspecified memory, modelled as
zeroes; no theorem below depends on this branch. -/
def move_part (bytes : List Nat) (rstart rend offset : Nat) : List Nat :=
  let dl := rend - rstart
  let padded :=
    if bytes.length < offset + dl then
      bytes ++ List.replicate (offset + dl - bytes.length) 0
    else bytes
  (List.range padded.length).map (fun i =>
    if offset ≤ i ∧ i < offset + dl then padded.getD (rstart + (i - offset)) 0
    else padded.getD i 0)

/-- `WriteBuffer::write_container`.  Faithful to the source, including: no
header placeholder is ever emitted before the callback runs; the `64` and
`0xff` arms append the tag and length after the payload; the `0xffff` and
`0xffffffff` arms prepend the prefix to the whole buffer; the
`0xffffffffffff` arm builds the prefix vector but never appends the payload
back. -/
def write_container (w : WBuf) (writeNext : WBuf → Except ReadBonErr WBuf)
    (estimatedSize : Option Nat) : Except ReadBonErr WBuf :=
  let t := w.bytes.length
  let capacity := w.cap
  let estimated := match estimatedSize with | some v => v | none => 0xffff
  let sel : WBuf × Nat × Nat :=
    if estimated ≤ 64 then (tryExtendCapity w (5 + estimated), 0, 64)
    else if estimated ≤ 0xff then (tryExtendCapity w (6 + estimated), 1, 0xff)
    else if estimated ≤ 0xffff then (tryExtendCapity w (8 + estimated), 3, 0xffff)
    else if estimated ≤ 0xffffffff then
      (tryExtendCapity w (10 + estimated), 5, 0xffffffff)
    else if estimated ≤ 0xffffffffffff then
      (tryExtendCapity w (12 + estimated), 7, 0xffffffffffff)
    else (tryExtendCapity w (14 + estimated), 9, 0xffffffffffffffff)
  let w := sel.1
  let lenBytes := sel.2.1
  let limitSize0 := sel.2.2
  let tt := w.tail
  match writeNext w with
  | .error e => .error e
  | .ok w =>
  let len := w.tail - tt
  let moved : WBuf × Nat :=
    if limitSize0 < len ∧ len > 64 then
      let sel1 : Nat × Nat :=
        if limitSize0 ≤ 64 ∧ len ≤ 0xff then (1, 0xff)
        else if len ≤ 0xffff then (3, 0xffff)
        else if len ≤ 0xffffffff then (5, 0xffffffff)
        else if len ≤ 0xffffffffffff then (7, 0xffffffffffff)
        else if len ≤ 0xffffffffffffffff then (9, 0xffffffffffffffff)
        else (0, limitSize0)
      let offset := sel1.1 - lenBytes
      let l := w.bytes.length
      -- `l + offset - capacity` is a usize subtraction in the source
      let w := tryExtendCapity w (l + offset - capacity)
      let w := { w with
          bytes := move_part w.bytes t l (t + offset),
          tail := w.tail + offset }
      (w, sel1.2)
    else (w, limitSize0)
  let w := moved.1
  let limitSize := moved.2
  if limitSize = 64 then .ok { w with bytes := w.bytes ++ leB 1 (180 + len) }
  else if limitSize = 0xff then .ok { w with bytes := w.bytes ++ [245] ++ leB 1 len }
  else if limitSize = 0xffff then .ok { w with bytes := [246] ++ leB 2 len ++ w.bytes }
  else if limitSize = 0xffffffff then
    .ok { w with bytes := [247] ++ leB 4 len ++ w.bytes }
  else if limitSize = 0xffffffffffff then
    .ok { w with bytes := [248] ++ leB 2 (len % 2 ^ 16) ++ leB 4 (len / 2 ^ 16) }
  else .error (.other ("Container overflow"))

/-! ## The comparator -/

/-- Result of a computation over two cursors (`partial_cmp` and its helpers
take both buffers by `&mut`). -/
abbrev Res2 (α : Type) := Except (RErr × RBuf × RBuf) (α × RBuf × RBuf)

/-- Lexicographic comparison of byte slices (`<[u8] as PartialOrd>`). -/
def lexCmp : List Nat → List Nat → Ordering
  | [], [] => .eq
  | [], _ :: _ => .lt
  | _ :: _, [] => .gt
  | a :: as1, b :: bs1 =>
    match compare a b with
    | .eq => lexCmp as1 bs1
    | o => o

/-- Little-endian value of a byte list (`BigInt::from_bytes_le`, positive
sign). -/
def leVal : List Nat → Nat
  | [] => 0
  | b :: rest => b + 2 ^ 8 * leVal rest

/-- `base_type_len`: total byte width of the value at the cursor; consumes
the tag and length prefix for the prefixed string/binary tags. -/
def base_type_len (s : RBuf) (t : Nat) : Res Nat :=
  if t < 5 ∨ (15 ≤ t ∧ t < 36) then .ok (1, s)
  else if t = 5 then .error (.bon (.other ("16-bit float unsupported")), s)
  else if t = 6 then .ok (5, s)
  else if t = 7 then .ok (9, s)
  else if t = 8 then .error (.bon (.other ("128-bit float unsupported")), s)
  else if t = 9 ∨ t = 36 then .ok (2, s)
  else if t = 10 ∨ t = 37 then .ok (3, s)
  else if t = 11 ∨ t = 38 then .ok (5, s)
  else if t = 12 ∨ t = 39 then .ok (7, s)
  else if t = 13 ∨ t = 40 then .ok (9, s)
  else if t = 14 ∨ t = 41 then .ok (17, s)
  else if 42 ≤ t ∧ t < 107 then .ok (t - 42 + 1, s)
  else if 111 ≤ t ∧ t < 176 then .ok (t - 111 + 1, s)
  else if t = 107 ∨ t = 176 then
    match advanceBy 1 s with
    | .error e => .error e
    | .ok (_, s) => getU8 s
  else if t = 108 ∨ t = 177 then
    match advanceBy 1 s with
    | .error e => .error e
    | .ok (_, s) => getU16le s
  else if t = 109 ∨ t = 178 then
    match advanceBy 1 s with
    | .error e => .error e
    | .ok (_, s) => getU32le s
  else if t = 110 ∨ t = 179 then
    match advanceBy 1 s with
    | .error e => .error e
    | .ok (_, s) => mapRes (fun l => l + 2) (getU32le s)
  else if t = 249 ∨ t = 250 then .ok (32, s)
  else .error (.bon (.other ("Unknown type code: " ++ Nat.repr t)), s)

/-- The 8-iteration accumulation loop of `to_bigint`.  The source multiplies
its `base` accumulator but never applies it to a chunk, so the result is the
plain sum of the eight little-endian 4-byte chunks. -/
def toBigintLoop : Nat → Int → RBuf → Res Int
  | 0, n, s => .ok (n, s)
  | k + 1, n, s =>
    let s := { s with head := s.head + 4 }
    match copyToBytes 4 s with
    | .error e => .error e
    | .ok (chunk, s) => toBigintLoop k (n + (leVal chunk : Int)) s

/-- `to_bigint` (tag 249). -/
def to_bigint (s : RBuf) : Res Int :=
  let s := { s with head := s.head + 1 }
  match advanceBy 1 s with
  | .error e => .error e
  | .ok (_, s) => toBigintLoop 8 0 s

/-- The final NaN handling and comparison of `compare_number` (`v1`, `v2` are
`f64` bit patterns). -/
def cmpNumFinish (v1 v2 : Nat) (s : RBuf) : Res (Option Ordering) :=
  if isNaN64 v1 then
    if isNaN64 v2 then .ok (some .eq, s) else .ok (some .lt, s)
  else .ok (f64Cmp v1 v2, s)

/-- `compare_number`: `v1` is the already-read left float (bit pattern), the
right value is read from `rb` according to its tag `t2`. -/
def compare_number (rb : RBuf) (v1 : Nat) (t2 : Nat) : Res (Option Ordering) :=
  if 3 ≤ t2 ∧ t2 < 8 then
    match readF64 rb with
    | .error e => .error e
    | .ok (v2, s) => cmpNumFinish v1 v2 s
  else if 9 ≤ t2 ∧ t2 < 14 then
    match readI64 rb with
    | .error e => .error e
    | .ok (x, s) => cmpNumFinish v1 (intToF64 x) s
  else if t2 = 14 then
    let s := { rb with head := rb.head + 17 }
    match advanceBy 17 s with
    | .error e => .error e
    | .ok (_, s) => .ok (some .gt, s)
  else if t2 = 15 then
    let s := { rb with head := rb.head + 1 }
    match advanceBy 1 s with
    | .error e => .error e
    | .ok (_, s) => cmpNumFinish v1 (2 ^ 63 + oneF64) s
  else if 16 ≤ t2 ∧ t2 < 41 then
    match readU64 rb with
    | .error e => .error e
    | .ok (x, s) => cmpNumFinish v1 (natToF64 x.toNat) s
  else if t2 = 41 then
    let s := { rb with head := rb.head + 17 }
    match advanceBy 17 s with
    | .error e => .error e
    | .ok (_, s) => .ok (some .lt, s)
  else .error (.bon (mkTypeNoMatch ("number") t2 rb.head), rb)

/-- `compare_int`: both tags equal `t`; read both sides at the width of the
tag band and compare. -/
def compare_int (rb1 rb2 : RBuf) (t : Nat) : Res2 (Option Ordering) :=
  if 9 ≤ t ∧ t < 14 then
    match readI64 rb1 with
    | .error (e, s1) => .error (e, s1, rb2)
    | .ok (v1, s1) =>
      match readI64 rb2 with
      | .error (e, s2) => .error (e, s1, s2)
      | .ok (v2, s2) => .ok (some (compare v1 v2), s1, s2)
  else if t = 14 then
    match readI128 rb1 with
    | .error (e, s1) => .error (e, s1, rb2)
    | .ok (v1, s1) =>
      match readI128 rb2 with
      | .error (e, s2) => .error (e, s1, s2)
      | .ok (v2, s2) => .ok (some (compare v1 v2), s1, s2)
  else if 36 ≤ t ∧ t < 41 then
    match readU64 rb1 with
    | .error (e, s1) => .error (e, s1, rb2)
    | .ok (v1, s1) =>
      match readU64 rb2 with
      | .error (e, s2) => .error (e, s1, s2)
      | .ok (v2, s2) => .ok (some (compare v1 v2), s1, s2)
  else if t = 41 then
    match readU128 rb1 with
    | .error (e, s1) => .error (e, s1, rb2)
    | .ok (v1, s1) =>
      match readU128 rb2 with
      | .error (e, s2) => .error (e, s1, s2)
      | .ok (v2, s2) => .ok (some (compare v1 v2), s1, s2)
  else .error (.bon (mkTypeNoMatch ("integer") t (rb1.head - 1)), rb1, rb2)

/-- The per-side length computation of `compare_str`. -/
def compare_strLen (s : RBuf) (t : Nat) : Res Nat :=
  if 42 ≤ t ∧ t < 107 then .ok (t - 42, s)
  else if t = 107 then
    let s := { s with head := s.head + 1 }
    getU8 s
  else if t = 108 then
    let s := { s with head := s.head + 2 }
    getU16le s
  else if t = 109 then
    let s := { s with head := s.head + 4 }
    getU32le s
  else if t = 110 then
    let s := { s with head := s.head + 6 }
    match getU16le s with
    | .error e => .error e
    | .ok (lo, s) =>
      mapRes (fun (hi : Nat) => lo + (toU 32 ((hi : Int) * 0x10000)).toNat) (getU32le s)
  else .error (.bon (mkTypeNoMatch ("string") t (s.head - 1)), s)

/-- `compare_str`: lexicographic comparison of the raw payload bytes. -/
def compare_str (rb1 rb2 : RBuf) : Res2 (Option Ordering) :=
  let rb1 := { rb1 with head := rb1.head + 1 }
  let rb2 := { rb2 with head := rb2.head + 1 }
  match getType rb1 with
  | .error (e, s1) => .error (e, s1, rb2)
  | .ok (t1, rb1) =>
  match getType rb2 with
  | .error (e, s2) => .error (e, rb1, s2)
  | .ok (t2, rb2) =>
  match compare_strLen rb1 t1 with
  | .error (e, s1) => .error (e, s1, rb2)
  | .ok (len1, rb1) =>
  match compare_strLen rb2 t2 with
  | .error (e, s2) => .error (e, rb1, s2)
  | .ok (len2, rb2) =>
  let rb1 := { rb1 with head := rb1.head + len1 }
  let rb2 := { rb2 with head := rb2.head + len2 }
  match copyToBytes len1 rb1 with
  | .error (e, s1) => .error (e, s1, rb2)
  | .ok (d1, rb1) =>
  match copyToBytes len2 rb2 with
  | .error (e, s2) => .error (e, rb1, s2)
  | .ok (d2, rb2) => .ok (some (lexCmp d1 d2), rb1, rb2)

/-- The per-side length computation of `compare_bin` (`msg` distinguishes the
`t1`/`t2` error strings of the source). -/
def compare_binLen (msg : String) (s : RBuf) (t : Nat) : Res Nat :=
  if 111 ≤ t ∧ t < 176 then .ok (t - 111, s)
  else if t = 176 then
    let s := { s with head := s.head + 1 }
    getU8 s
  else if t = 177 then
    let s := { s with head := s.head + 2 }
    getU16le s
  else if t = 178 then
    let s := { s with head := s.head + 4 }
    getU32le s
  else if t = 179 then
    let s := { s with head := s.head + 6 }
    match getU16le s with
    | .error e => .error e
    | .ok (lo, s) =>
      mapRes (fun (hi : Nat) => lo + (toU 32 ((hi : Int) * 0x10000)).toNat) (getU32le s)
  else .error (.bon (.other (msg ++ Nat.repr t)), s)

/-- `compare_bin`. -/
def compare_bin (rb1 rb2 : RBuf) : Res2 (Option Ordering) :=
  let rb1 := { rb1 with head := rb1.head + 1 }
  let rb2 := { rb2 with head := rb2.head + 1 }
  match getType rb1 with
  | .error (e, s1) => .error (e, s1, rb2)
  | .ok (t1, rb1) =>
  match getType rb2 with
  | .error (e, s2) => .error (e, rb1, s2)
  | .ok (t2, rb2) =>
  match compare_binLen ("t1 is not bin:") rb1 t1 with
  | .error (e, s1) => .error (e, s1, rb2)
  | .ok (len1, rb1) =>
  match compare_binLen ("t2 is not bin:") rb2 t2 with
  | .error (e, s2) => .error (e, rb1, s2)
  | .ok (len2, rb2) =>
  let rb1 := { rb1 with head := rb1.head + len1 }
  let rb2 := { rb2 with head := rb2.head + len2 }
  match copyToBytes len1 rb1 with
  | .error (e, s1) => .error (e, s1, rb2)
  | .ok (d1, rb1) =>
  match copyToBytes len2 rb2 with
  | .error (e, s2) => .error (e, rb1, s2)
  | .ok (d2, rb2) => .ok (some (lexCmp d1 d2), rb1, rb2)

/-- The per-side size-prefix consumption of `compare_contain` (the computed
length is discarded by the source). -/
def compare_containLen (msg : String) (s : RBuf) (t : Nat) : Res Nat :=
  if 180 ≤ t ∧ t < 245 then .ok (t - 180, s)
  else if t = 245 then
    let s := { s with head := s.head + 1 }
    getU8 s
  else if t = 246 then
    let s := { s with head := s.head + 2 }
    getU16le s
  else if t = 247 then
    let s := { s with head := s.head + 4 }
    getU32le s
  else if t = 248 then
    let s := { s with head := s.head + 6 }
    match getU16le s with
    | .error e => .error e
    | .ok (lo, s) =>
      mapRes (fun (hi : Nat) => lo + (toU 32 ((hi : Int) * 0x10000)).toNat) (getU32le s)
  else .error (.bon (.other (msg ++ Nat.repr t)), s)

/-- `compare_contain`: consumes each side's tag and size prefix (the type
hash and the children are not touched) and unconditionally reports `Equal`. -/
def compare_contain (rb1 rb2 : RBuf) : Res2 (Option Ordering) :=
  match getType rb1 with
  | .error (e, s1) => .error (e, s1, rb2)
  | .ok (t1, rb1) =>
  match getType rb2 with
  | .error (e, s2) => .error (e, rb1, s2)
  | .ok (t2, rb2) =>
  let rb1 := { rb1 with head := rb1.head + 1 }
  let rb2 := { rb2 with head := rb2.head + 1 }
  match compare_containLen ("Invalid contain type t1: ") rb1 t1 with
  | .error (e, s1) => .error (e, s1, rb2)
  | .ok (_, rb1) =>
  match compare_containLen ("Invalid contain type t2: ") rb2 t2 with
  | .error (e, s2) => .error (e, rb1, s2)
  | .ok (_, rb2) => .ok (some .eq, rb1, rb2)

/-- One step of the comparator: the free function `partial_cmp`, the big
match on the two tag values (arms in source order; the ranges tested below
select the same arm as the source's ordered match). -/
def cmpStep (b1 b2 : RBuf) : Res2 (Option Ordering) :=
  match getTypeChunk b1 with
  | .error (_, s1) => .error (.panic, s1, b2)
  | .ok (t1, b1) =>
  match getTypeChunk b2 with
  | .error (_, s2) => .error (.panic, b1, s2)
  | .ok (t2, b2) =>
  if 3 ≤ t1 ∧ t1 < 8 then
    if 3 ≤ t2 ∧ t2 < 42 then
      -- (3..8, 3..42): left float against right number
      let v1res : Res Nat :=
        if t1 < 7 then mapRes f32ToF64 (readF32 b1) else readF64 b1
      match v1res with
      | .error (_, s1) => .error (.panic, s1, b2)
      | .ok (v1, b1) =>
        match compare_number b2 v1 t2 with
        | .error (e, s2) => .error (e, b1, s2)
        | .ok (o, b2) => .ok (o, b1, b2)
    else if t2 < 3 then
      -- (3..8, 0..3)
      match base_type_len b1 t1 with
      | .error (e, s1) => .error (e, s1, b2)
      | .ok (len1, b1) =>
      let b1 := { b1 with head := b1.head + len1 }
      let b2 := { b2 with head := b2.head + 1 }
      match advanceBy len1 b1 with
      | .error (e, s1) => .error (e, s1, b2)
      | .ok (_, b1) =>
      match advanceBy 1 b2 with
      | .error (e, s2) => .error (e, b1, s2)
      | .ok (_, b2) => .ok (some .gt, b1, b2)
    else
      -- (3..8, _)
      match base_type_len b1 t1 with
      | .error (e, s1) => .error (e, s1, b2)
      | .ok (len1, b1) =>
      let b1 := { b1 with head := b1.head + len1 }
      match advanceBy len1 b1 with
      | .error (e, s1) => .error (e, s1, b2)
      | .ok (_, b1) =>
      match base_type_len b2 t2 with
      | .error (e, s2) => .error (e, b1, s2)
      | .ok (len2, b2) =>
      let b2 := { b2 with head := b2.head + len2 }
      match advanceBy len2 b2 with
      | .error (e, s2) => .error (e, b1, s2)
      | .ok (_, b2) => .ok (some .lt, b1, b2)
  else if 9 ≤ t1 ∧ t1 < 42 then
    if 3 ≤ t2 ∧ t2 < 8 then
      -- (9..42, 3..8): right float read, then flipped number comparison
      let v2res : Res Nat :=
        if t2 < 7 then mapRes f32ToF64 (readF32 b2) else readF64 b2
      match v2res with
      | .error (_, s2) => .error (.panic, b1, s2)
      | .ok (v2, b2) =>
        match compare_number b1 v2 t1 with
        | .error (e, s1) => .error (e, s1, b2)
        | .ok (some .lt, b1) => .ok (some .gt, b1, b2)
        | .ok (some .gt, b1) => .ok (some .lt, b1, b2)
        | .ok (some .eq, b1) => .ok (some .eq, b1, b2)
        | .ok (none, b1) => .ok (none, b1, b2)
    else if 9 ≤ t2 ∧ t2 < 42 then
      -- (9..42, 9..42)
      if t1 > t2 then
        match base_type_len b1 t1 with
        | .error (e, s1) => .error (e, s1, b2)
        | .ok (len1, b1) =>
        match base_type_len b2 t2 with
        | .error (e, s2) => .error (e, b1, s2)
        | .ok (len2, b2) =>
        match advanceBy len1 b1 with
        | .error (e, s1) => .error (e, s1, b2)
        | .ok (_, b1) =>
        match advanceBy len2 b2 with
        | .error (e, s2) => .error (e, b1, s2)
        | .ok (_, b2) =>
          .ok (some .gt, { b1 with head := b1.head + len1 },
            { b2 with head := b2.head + len2 })
      else if t1 < t2 then
        match base_type_len b1 t1 with
        | .error (e, s1) => .error (e, s1, b2)
        | .ok (len1, b1) =>
        match base_type_len b2 t2 with
        | .error (e, s2) => .error (e, b1, s2)
        | .ok (len2, b2) =>
        match advanceBy len1 b1 with
        | .error (e, s1) => .error (e, s1, b2)
        | .ok (_, b1) =>
        match advanceBy len2 b2 with
        | .error (e, s2) => .error (e, b1, s2)
        | .ok (_, b2) =>
          .ok (some .lt, { b1 with head := b1.head + len1 },
            { b2 with head := b2.head + len2 })
      else if 14 < t1 ∧ t1 < 36 then
        match base_type_len b1 t1 with
        | .error (e, s1) => .error (e, s1, b2)
        | .ok (len1, b1) =>
        match base_type_len b2 t2 with
        | .error (e, s2) => .error (e, b1, s2)
        | .ok (len2, b2) =>
        match advanceBy len1 b1 with
        | .error (e, s1) => .error (e, s1, b2)
        | .ok (_, b1) =>
        match advanceBy len2 b2 with
        | .error (e, s2) => .error (e, b1, s2)
        | .ok (_, b2) =>
          .ok (some .eq, { b1 with head := b1.head + len1 },
            { b2 with head := b2.head + len2 })
      else compare_int b1 b2 t1
    else if t2 < 3 then
      -- (9..42, 0..3)
      match base_type_len b1 t1 with
      | .error (e, s1) => .error (e, s1, b2)
      | .ok (len1, b1) =>
      match advanceBy len1 b1 with
      | .error (e, s1) => .error (e, s1, b2)
      | .ok (_, b1) =>
      match advanceBy 1 b2 with
      | .error (e, s2) => .error (e, b1, s2)
      | .ok (_, b2) =>
        .ok (some .gt, { b1 with head := b1.head + len1 },
          { b2 with head := b2.head + 1 })
    else
      -- (9..42, _)
      match base_type_len b1 t1 with
      | .error (e, s1) => .error (e, s1, b2)
      | .ok (len1, b1) =>
      match base_type_len b2 t2 with
      | .error (e, s2) => .error (e, b1, s2)
      | .ok (len2, b2) =>
      match advanceBy len1 b1 with
      | .error (e, s1) => .error (e, s1, b2)
      | .ok (_, b1) =>
      match advanceBy len2 b2 with
      | .error (e, s2) => .error (e, b1, s2)
      | .ok (_, b2) =>
        .ok (some .lt, { b1 with head := b1.head + len1 },
          { b2 with head := b2.head + len2 })
  else if t1 < 3 then
    -- (0..3, _)
    let b1 := { b1 with head := b1.head + 1 }
    match advanceBy 1 b1 with
    | .error (e, s1) => .error (e, s1, b2)
    | .ok (_, b1) =>
    match base_type_len b2 t2 with
    | .error (e, s2) => .error (e, b1, s2)
    | .ok (len2, b2) =>
    let b2 := { b2 with head := b2.head + len2 }
    match advanceBy len2 b2 with
    | .error (e, s2) => .error (e, b1, s2)
    | .ok (_, b2) =>
      if t2 > t1 then .ok (some .lt, b1, b2)
      else if t2 < t1 then .ok (some .gt, b1, b2)
      else .ok (some .eq, b1, b2)
  else if 42 ≤ t1 ∧ t1 < 111 then
    -- (42..111, _)
    if t2 > 110 then
      match base_type_len b1 t1 with
      | .error (e, s1) => .error (e, s1, b2)
      | .ok (len1, b1) =>
      match base_type_len b2 t2 with
      | .error (e, s2) => .error (e, b1, s2)
      | .ok (len2, b2) =>
      match advanceBy len1 b1 with
      | .error (e, s1) => .error (e, s1, b2)
      | .ok (_, b1) =>
      match advanceBy len2 b2 with
      | .error (e, s2) => .error (e, b1, s2)
      | .ok (_, b2) =>
        .ok (some .lt, { b1 with head := b1.head + len1 },
          { b2 with head := b2.head + len2 })
    else if t2 < 42 then
      match base_type_len b1 t1 with
      | .error (e, s1) => .error (e, s1, b2)
      | .ok (len1, b1) =>
      match base_type_len b2 t2 with
      | .error (e, s2) => .error (e, b1, s2)
      | .ok (len2, b2) =>
      match advanceBy len1 b1 with
      | .error (e, s1) => .error (e, s1, b2)
      | .ok (_, b1) =>
      match advanceBy len2 b2 with
      | .error (e, s2) => .error (e, b1, s2)
      | .ok (_, b2) =>
        .ok (some .gt, { b1 with head := b1.head + len1 },
          { b2 with head := b2.head + len2 })
    else compare_str b1 b2
  else if 111 ≤ t1 ∧ t1 < 180 then
    -- (111..180, _)
    if t2 > 179 then
      match base_type_len b1 t1 with
      | .error (e, s1) => .error (e, s1, b2)
      | .ok (len1, b1) =>
      match base_type_len b2 t2 with
      | .error (e, s2) => .error (e, b1, s2)
      | .ok (len2, b2) =>
      match advanceBy len1 b1 with
      | .error (e, s1) => .error (e, s1, b2)
      | .ok (_, b1) =>
      match advanceBy len2 b2 with
      | .error (e, s2) => .error (e, b1, s2)
      | .ok (_, b2) =>
        .ok (some .lt, { b1 with head := b1.head + len1 },
          { b2 with head := b2.head + len2 })
    else if t2 < 111 then
      match base_type_len b1 t1 with
      | .error (e, s1) => .error (e, s1, b2)
      | .ok (len1, b1) =>
      match base_type_len b2 t2 with
      | .error (e, s2) => .error (e, b1, s2)
      | .ok (len2, b2) =>
      match advanceBy len1 b1 with
      | .error (e, s1) => .error (e, s1, b2)
      | .ok (_, b1) =>
      match advanceBy len2 b2 with
      | .error (e, s2) => .error (e, b1, s2)
      | .ok (_, b2) =>
        .ok (some .gt, { b1 with head := b1.head + len1 },
          { b2 with head := b2.head + len2 })
    else compare_bin b1 b2
  else if t2 = 0 then .ok (some .gt, b1, b2)
  else if t1 = 249 ∧ t2 = 249 then
    match to_bigint b1 with
    | .error (e, s1) => .error (e, s1, b2)
    | .ok (n1, b1) =>
    match to_bigint b2 with
    | .error (e, s2) => .error (e, b1, s2)
    | .ok (n2, b2) => .ok (some (compare n1 n2), b1, b2)
  else
    if t2 < 180 then
      match base_type_len b1 t1 with
      | .error (e, s1) => .error (e, s1, b2)
      | .ok (len1, b1) =>
      match base_type_len b2 t2 with
      | .error (e, s2) => .error (e, b1, s2)
      | .ok (len2, b2) =>
      match advanceBy len1 b1 with
      | .error (e, s1) => .error (e, s1, b2)
      | .ok (_, b1) =>
      match advanceBy len2 b2 with
      | .error (e, s2) => .error (e, b1, s2)
      | .ok (_, b2) =>
        .ok (some .gt, { b1 with head := b1.head + len1 },
          { b2 with head := b2.head + len2 })
    else compare_contain b1 b2

/-- The retry loop of `ReadBuffer::partial_cmp`: an `Equal` step continues
until the *first* buffer is exhausted.  Result encoding: `none` is a Rust
panic, `some none` is a returned "no ordering", `some (some o)` a returned
ordering.  Every `Equal`-continuing step consumes at least one byte of `b1`,
so the fuel passed by `rbufCmp` can never reach 0 first. -/
def rbufCmpLoop : Nat → RBuf → RBuf → Option (Option Ordering)
  | 0, _, _ => none
  | fuel + 1, b1, b2 =>
    match cmpStep b1 b2 with
    | .ok (none, _, _) => some none
    | .ok (some .eq, b1, b2) =>
        if b1.bytes.length = 0 then some (some .eq)
        else rbufCmpLoop fuel b1 b2
    | .ok (some .gt, _, _) => some (some .gt)
    | .ok (some .lt, _, _) => some (some .lt)
    | .error (.panic, _, _) => none
    | .error (.bon _, _, _) => some none

/-- The container-skip amount of `ReadBuffer::partial_cmp`: tag byte, the
assumed length-prefix bytes, and the 4-byte type hash.  (Tags `180..=245`
are all charged one length byte, though tags below 245 carry none.) -/
def containSkip (t : Nat) : Option Nat :=
  if 180 ≤ t ∧ t < 246 then some (1 + 1 + 4)
  else if t = 246 then some (1 + 2 + 4)
  else if t = 247 then some (1 + 4 + 4)
  else if t = 248 then some (1 + 6 + 4)
  else none

/-- `impl PartialOrd for ReadBuffer`, on the raw byte slices (the source
rebuilds both cursors at head 0).  `none` models a panic, `some none` the
returned "no ordering". -/
def rbufCmp (bytes1 bytes2 : List Nat) : Option (Option Ordering) :=
  let b1 : RBuf := ⟨bytes1, 0⟩
  let b2 : RBuf := ⟨bytes2, 0⟩
  match getTypeChunk b1 with
  | .error _ => none
  | .ok (t1, b1) =>
  match getTypeChunk b2 with
  | .error _ => none
  | .ok (t2, b2) =>
  if (180 ≤ t1 ∧ t1 < 249) ∧ (180 ≤ t2 ∧ t2 < 249) then
    match containSkip t1 with
    | none => some none
    | some k1 =>
      match containSkip t2 with
      | none => some none
      | some k2 =>
        if k1 ≤ b1.bytes.length ∧ k2 ≤ b2.bytes.length then
          rbufCmpLoop (bytes1.length + 1) ⟨b1.bytes.drop k1, k1⟩ ⟨b2.bytes.drop k2, k2⟩
        else none
  else rbufCmpLoop (bytes1.length + 1) b1 b2

/-- The container payload writer of the C4 scenario: the 4-byte little-endian
type hash `0x12345678`, then one `i32` value 5, then one `bool` true
(mirroring the callback shape of the source's own `test_container_cmp`). -/
def hashI32BoolPayload (w : WBuf) : Except ReadBonErr WBuf :=
  let w := { w with bytes := w.bytes ++ [0x78, 0x56, 0x34, 0x12], tail := w.tail + 4 }
  let w := write_i32 w 5
  .ok (write_bool w true)

/-- The tag byte that `write_uint64` emits for `v`. -/
def tagOfU64 (v : Nat) : Nat :=
  if v < 20 then 16 + v
  else if v ≤ 0xFF then 36
  else if v ≤ 0xFFFF then 37
  else if v ≤ 0xFFFFFFFF then 38
  else if v ≤ 0xFFFFFFFFFFFF then 39
  else 40

/-- Total encoded width (tag plus payload) of the fixed-width integer tag
`t`, matching `base_type_len`. -/
def tagLenU64 (t : Nat) : Nat :=
  if t < 36 then 1
  else if t = 36 then 2
  else if t = 37 then 3
  else if t = 38 then 5
  else if t = 39 then 7
  else 9

/-! ## Helper lemmas: casts -/

/-- An in-range nonnegative value is fixed by the unsigned cast. -/
theorem toU_eq_of_lt (w : Nat) (x : Int) (h0 : 0 ≤ x) (h1 : x < 2 ^ w) :
    toU w x = x :=
  Int.emod_eq_of_lt h0 h1

/-- An in-range `Nat` is fixed by the unsigned cast. -/
theorem toU_natCast (w : Nat) (v : Nat) (h : v < 2 ^ w) : toU w (v : Int) = v := by
  refine toU_eq_of_lt w _ (by positivity) ?_
  exact_mod_cast h

/-- An in-range value is fixed by the signed cast. -/
theorem toI_eq_of_range (w : Nat) (hw : 1 ≤ w) (x : Int)
    (h0 : -(2 ^ (w - 1)) ≤ x) (h1 : x < 2 ^ (w - 1)) : toI w x = x := by
  unfold toI
  have h2 : (2 : Int) ^ w = 2 ^ (w - 1) * 2 := by
    rw [← pow_succ]
    congr 1
    omega
  rw [Int.emod_eq_of_lt (by omega) (by omega)]
  ring

/-! ## Helper lemmas: `read_integer` on each tag band

Each lemma fixes the tag byte of the band and exposes the payload bytes; all
are definitional. -/

/-- Tag 9 (negative, 8-bit magnitude). -/
theorem readInteger_t9 (cast : Int → Int) (b : Nat) (rest : List Nat) (hd : Nat) :
    readInteger cast ⟨9 :: b :: rest, hd⟩ =
      .ok (cast (-(b : Int)), ⟨rest, hd + 2⟩) := rfl

/-- Tag 10 (negative, 16-bit magnitude). -/
theorem readInteger_t10 (cast : Int → Int) (b0 b1 : Nat) (rest : List Nat) (hd : Nat) :
    readInteger cast ⟨10 :: b0 :: b1 :: rest, hd⟩ =
      .ok (cast (-((b0 + 2 ^ 8 * b1 : Nat) : Int)), ⟨rest, hd + 3⟩) := rfl

/-- Tag 11 (negative, 32-bit magnitude). -/
theorem readInteger_t11 (cast : Int → Int) (b0 b1 b2 b3 : Nat) (rest : List Nat) (hd : Nat) :
    readInteger cast ⟨11 :: b0 :: b1 :: b2 :: b3 :: rest, hd⟩ =
      .ok (cast (-((b0 + 2 ^ 8 * b1 + 2 ^ 16 * b2 + 2 ^ 24 * b3 : Nat) : Int)),
        ⟨rest, hd + 5⟩) := rfl

/-- Tag 12 (negative, 48-bit magnitude split 16/32). -/
theorem readInteger_t12 (cast : Int → Int) (b0 b1 b2 b3 b4 b5 : Nat)
    (rest : List Nat) (hd : Nat) :
    readInteger cast ⟨12 :: b0 :: b1 :: b2 :: b3 :: b4 :: b5 :: rest, hd⟩ =
      .ok (cast (-((b0 + 2 ^ 8 * b1 : Nat) : Int) -
        ((b2 + 2 ^ 8 * b3 + 2 ^ 16 * b4 + 2 ^ 24 * b5 : Nat) : Int) * 2 ^ 16),
        ⟨rest, hd + 7⟩) := rfl

/-- Tag 13 (negative, 64-bit magnitude; the `u64 as i64` cast wraps). -/
theorem readInteger_t13 (cast : Int → Int) (b0 b1 b2 b3 b4 b5 b6 b7 : Nat)
    (rest : List Nat) (hd : Nat) :
    readInteger cast ⟨13 :: b0 :: b1 :: b2 :: b3 :: b4 :: b5 :: b6 :: b7 :: rest, hd⟩ =
      .ok (cast (toI 64 (-(toI 64 ((b0 + 2 ^ 8 * b1 + 2 ^ 16 * b2 + 2 ^ 24 * b3 +
        2 ^ 32 * b4 + 2 ^ 40 * b5 + 2 ^ 48 * b6 + 2 ^ 56 * b7 : Nat) : Int)))),
        ⟨rest, hd + 9⟩) := rfl

/-- Tags 15–35 (inline `-1..19`). -/
theorem readInteger_small (cast : Int → Int) (t : Nat) (rest : List Nat) (hd : Nat)
    (h15 : 15 ≤ t) (h35 : t ≤ 35) :
    readInteger cast ⟨t :: rest, hd⟩ =
      .ok (cast ((t : Int) - 16), ⟨rest, hd + 1⟩) := by
  interval_cases t <;> rfl

/-- Tag 36 (unsigned, 8-bit). -/
theorem readInteger_t36 (cast : Int → Int) (b : Nat) (rest : List Nat) (hd : Nat) :
    readInteger cast ⟨36 :: b :: rest, hd⟩ = .ok (cast (b : Int), ⟨rest, hd + 2⟩) := rfl

/-- Tag 37 (unsigned, 16-bit). -/
theorem readInteger_t37 (cast : Int → Int) (b0 b1 : Nat) (rest : List Nat) (hd : Nat) :
    readInteger cast ⟨37 :: b0 :: b1 :: rest, hd⟩ =
      .ok (cast ((b0 + 2 ^ 8 * b1 : Nat) : Int), ⟨rest, hd + 3⟩) := rfl

/-- Tag 38 (unsigned, 32-bit). -/
theorem readInteger_t38 (cast : Int → Int) (b0 b1 b2 b3 : Nat) (rest : List Nat) (hd : Nat) :
    readInteger cast ⟨38 :: b0 :: b1 :: b2 :: b3 :: rest, hd⟩ =
      .ok (cast ((b0 + 2 ^ 8 * b1 + 2 ^ 16 * b2 + 2 ^ 24 * b3 : Nat) : Int),
        ⟨rest, hd + 5⟩) := rfl

/-- Tag 39 (unsigned, 48-bit split 16/32). -/
theorem readInteger_t39 (cast : Int → Int) (b0 b1 b2 b3 b4 b5 : Nat)
    (rest : List Nat) (hd : Nat) :
    readInteger cast ⟨39 :: b0 :: b1 :: b2 :: b3 :: b4 :: b5 :: rest, hd⟩ =
      .ok (cast (((b0 + 2 ^ 8 * b1 : Nat) : Int) +
        ((b2 + 2 ^ 8 * b3 + 2 ^ 16 * b4 + 2 ^ 24 * b5 : Nat) : Int) * 2 ^ 16),
        ⟨rest, hd + 7⟩) := rfl

/-- Tag 40 (unsigned, 64-bit). -/
theorem readInteger_t40 (cast : Int → Int) (b0 b1 b2 b3 b4 b5 b6 b7 : Nat)
    (rest : List Nat) (hd : Nat) :
    readInteger cast ⟨40 :: b0 :: b1 :: b2 :: b3 :: b4 :: b5 :: b6 :: b7 :: rest, hd⟩ =
      .ok (cast ((b0 + 2 ^ 8 * b1 + 2 ^ 16 * b2 + 2 ^ 24 * b3 + 2 ^ 32 * b4 +
        2 ^ 40 * b5 + 2 ^ 48 * b6 + 2 ^ 56 * b7 : Nat) : Int), ⟨rest, hd + 9⟩) := rfl

/-- Tag 14 (negative, 128-bit; the `u128 as i128` cast wraps). -/
theorem readInteger_t14 (cast : Int → Int)
    (b0 b1 b2 b3 b4 b5 b6 b7 b8 b9 b10 b11 b12 b13 b14 b15 : Nat)
    (rest : List Nat) (hd : Nat) :
    readInteger cast ⟨14 :: b0 :: b1 :: b2 :: b3 :: b4 :: b5 :: b6 :: b7 ::
        b8 :: b9 :: b10 :: b11 :: b12 :: b13 :: b14 :: b15 :: rest, hd⟩ =
      .ok (cast (toI 128 (-(toI 128 ((b0 + 2 ^ 8 * b1 + 2 ^ 16 * b2 + 2 ^ 24 * b3 +
        2 ^ 32 * b4 + 2 ^ 40 * b5 + 2 ^ 48 * b6 + 2 ^ 56 * b7 + 2 ^ 64 * b8 +
        2 ^ 72 * b9 + 2 ^ 80 * b10 + 2 ^ 88 * b11 + 2 ^ 96 * b12 + 2 ^ 104 * b13 +
        2 ^ 112 * b14 + 2 ^ 120 * b15 : Nat) : Int)))), ⟨rest, hd + 17⟩) := rfl

/-- Tag 41 (unsigned, 128-bit; the source advances `head` by only 8). -/
theorem readInteger_t41 (cast : Int → Int)
    (b0 b1 b2 b3 b4 b5 b6 b7 b8 b9 b10 b11 b12 b13 b14 b15 : Nat)
    (rest : List Nat) (hd : Nat) :
    readInteger cast ⟨41 :: b0 :: b1 :: b2 :: b3 :: b4 :: b5 :: b6 :: b7 ::
        b8 :: b9 :: b10 :: b11 :: b12 :: b13 :: b14 :: b15 :: rest, hd⟩ =
      .ok (cast ((b0 + 2 ^ 8 * b1 + 2 ^ 16 * b2 + 2 ^ 24 * b3 + 2 ^ 32 * b4 +
        2 ^ 40 * b5 + 2 ^ 48 * b6 + 2 ^ 56 * b7 + 2 ^ 64 * b8 + 2 ^ 72 * b9 +
        2 ^ 80 * b10 + 2 ^ 88 * b11 + 2 ^ 96 * b12 + 2 ^ 104 * b13 +
        2 ^ 112 * b14 + 2 ^ 120 * b15 : Nat) : Int), ⟨rest, hd + 9⟩) := rfl

/-! ## Helper lemmas: writer byte shapes and integer round-trips -/

theorem tryExtendCapity_bytes (w : WBuf) (l : Nat) :
    (tryExtendCapity w l).bytes = w.bytes := by
  unfold tryExtendCapity extendCapity
  split_ifs <;> rfl

theorem write_8_bytes (w : WBuf) (v t : Nat) :
    (write_8 w v t).bytes = w.bytes ++ [t, v % 2 ^ 8] := by
  simp [write_8, tryExtendCapity_bytes, leB]

theorem write_16_bytes (w : WBuf) (v t : Nat) :
    (write_16 w v t).bytes = w.bytes ++ t :: leB 2 v := by
  simp [write_16, tryExtendCapity_bytes]

theorem write_32_bytes (w : WBuf) (v t : Nat) :
    (write_32 w v t).bytes = w.bytes ++ t :: leB 4 v := by
  simp [write_32, tryExtendCapity_bytes]

theorem write_48_bytes (w : WBuf) (v t : Nat) :
    (write_48 w v t).bytes = w.bytes ++ t :: (leB 2 (v % 2 ^ 16) ++ leB 4 (v / 2 ^ 16)) := by
  simp [write_48, tryExtendCapity_bytes]

theorem write_64_bytes (w : WBuf) (v t : Nat) :
    (write_64 w v t).bytes = w.bytes ++ t :: leB 8 v := by
  simp [write_64, tryExtendCapity_bytes]

theorem write_128_bytes (w : WBuf) (v t : Nat) :
    (write_128 w v t).bytes = w.bytes ++ t :: leB 16 v := by
  simp [write_128, tryExtendCapity_bytes]

theorem write_common_bytes (w : WBuf) (v : Int) (h0 : -1 ≤ v) (h1 : v < 20) :
    (write_common w v).bytes = w.bytes ++ [(v + 16).toNat] := by
  simp only [write_common, tryExtendCapity_bytes]
  congr 2
  unfold toU
  rw [Int.emod_eq_of_lt (by omega) (by omega)]

theorem rt_writeu_32 (cast : Int → Int) (v : Nat) (rest : List Nat) (hd : Nat)
    (hv : v < 2 ^ 32) :
    readInteger cast ⟨(writeu_32 wbNew v).bytes ++ rest, hd⟩ =
      .ok (cast (v : Int), ⟨rest, hd + (writeu_32 wbNew v).bytes.length⟩) := by
  by_cases h2 : v ≤ 0xFF
  · rw [show writeu_32 wbNew v = write_8 wbNew v 36 from if_pos h2]
    rw [write_8_bytes]
    simp only [wbNew, List.nil_append, List.cons_append, List.length_cons, List.length_nil]
    rw [show v % 2 ^ 8 = v by omega]
    rw [readInteger_t36]
  · rw [show writeu_32 wbNew v = if v ≤ 0xFFFF then write_16 wbNew v 37
        else write_32 wbNew v 38 from if_neg h2]
    by_cases h3 : v ≤ 0xFFFF
    · rw [if_pos h3, write_16_bytes]
      simp only [wbNew, leB, List.nil_append, List.cons_append, List.length_cons,
        List.length_nil]
      rw [readInteger_t37]
      congr 3
      omega
    · rw [if_neg h3, write_32_bytes]
      simp only [wbNew, leB, List.nil_append, List.cons_append, List.length_cons,
        List.length_nil]
      rw [readInteger_t38]
      congr 3
      omega

theorem rt_writeu_64 (cast : Int → Int) (v : Nat) (rest : List Nat) (hd : Nat)
    (hv : v < 2 ^ 64) :
    readInteger cast ⟨(writeu_64 wbNew v).bytes ++ rest, hd⟩ =
      .ok (cast (v : Int), ⟨rest, hd + (writeu_64 wbNew v).bytes.length⟩) := by
  by_cases h2 : v ≤ 0xFFFFFFFFFFFF
  · rw [show writeu_64 wbNew v = write_48 wbNew v 39 from if_pos h2]
    rw [write_48_bytes]
    simp only [wbNew, leB, List.nil_append, List.cons_append, List.length_cons,
      List.length_nil]
    rw [readInteger_t39]
    have e1 : v % 2 ^ 16 % 2 ^ 8 + 2 ^ 8 * (v % 2 ^ 16 / 2 ^ 8 % 2 ^ 8) = v % 2 ^ 16 := by
      omega
    have e2 : v / 2 ^ 16 % 2 ^ 8 + 2 ^ 8 * (v / 2 ^ 16 / 2 ^ 8 % 2 ^ 8) +
        2 ^ 16 * (v / 2 ^ 16 / 2 ^ 8 / 2 ^ 8 % 2 ^ 8) +
        2 ^ 24 * (v / 2 ^ 16 / 2 ^ 8 / 2 ^ 8 / 2 ^ 8 % 2 ^ 8) = v / 2 ^ 16 := by
      omega
    have e3 : ((v % 2 ^ 16 : Nat) : Int) + ((v / 2 ^ 16 : Nat) : Int) * 2 ^ 16 = (v : Int) := by
      push_cast
      omega
    rw [e1, e2, e3]
  · rw [show writeu_64 wbNew v = write_64 wbNew v 40 from if_neg h2]
    rw [write_64_bytes]
    simp only [wbNew, leB, List.nil_append, List.cons_append, List.length_cons,
      List.length_nil]
    rw [readInteger_t40]
    congr 3
    omega

theorem rt_write128 (cast : Int → Int) (v : Nat) (rest : List Nat) (hd : Nat)
    (hv : v < 2 ^ 128) :
    readInteger cast ⟨(write_128 wbNew v 41).bytes ++ rest, hd⟩ =
      .ok (cast (v : Int), ⟨rest, hd + 9⟩) := by
  rw [write_128_bytes]
  simp only [wbNew, leB, List.nil_append, List.cons_append]
  rw [readInteger_t41]
  congr 3
  omega

theorem toU_toI (w : Nat) (x : Int) : toU w (toI w x) = toU w x := by
  unfold toU toI
  conv_rhs => rw [show x = x + 2 ^ (w - 1) - 2 ^ (w - 1) from by ring]
  rw [Int.sub_emod, Int.sub_emod (x + 2 ^ (w - 1)), Int.emod_emod_of_dvd _ dvd_rfl]

theorem rt_writei_32_neg (cast : Int → Int) (m : Nat) (rest : List Nat) (hd : Nat)
    (hm2 : m ≤ 2 ^ 31) :
    readInteger cast ⟨(writei_32 wbNew m 9).bytes ++ rest, hd⟩ =
      .ok (cast (-(m : Int)), ⟨rest, hd + (writei_32 wbNew m 9).bytes.length⟩) := by
  by_cases hb1 : m ≤ 0x7F
  · rw [show writei_32 wbNew m 9 = write_8 wbNew m 9 from if_pos hb1, write_8_bytes]
    simp only [wbNew, List.nil_append, List.cons_append, List.length_cons, List.length_nil]
    rw [show m % 2 ^ 8 = m from by omega, readInteger_t9]
  · rw [show writei_32 wbNew m 9 = if m ≤ 0x7FFF then write_16 wbNew m 10
        else write_32 wbNew m 11 from if_neg hb1]
    by_cases hb2 : m ≤ 0x7FFF
    · rw [if_pos hb2, write_16_bytes]
      simp only [wbNew, leB, List.nil_append, List.cons_append, List.length_cons,
        List.length_nil]
      rw [readInteger_t10, show m % 2 ^ 8 + 2 ^ 8 * (m / 2 ^ 8 % 2 ^ 8) = m from by omega]
    · rw [if_neg hb2, write_32_bytes]
      simp only [wbNew, leB, List.nil_append, List.cons_append, List.length_cons,
        List.length_nil]
      rw [readInteger_t11, show m % 2 ^ 8 + 2 ^ 8 * (m / 2 ^ 8 % 2 ^ 8) +
        2 ^ 16 * (m / 2 ^ 8 / 2 ^ 8 % 2 ^ 8) +
        2 ^ 24 * (m / 2 ^ 8 / 2 ^ 8 / 2 ^ 8 % 2 ^ 8) = m from by omega]

theorem rt_writei_32_pos (cast : Int → Int) (m : Nat) (rest : List Nat) (hd : Nat)
    (hm2 : m < 2 ^ 31) :
    readInteger cast ⟨(writei_32 wbNew m 36).bytes ++ rest, hd⟩ =
      .ok (cast (m : Int), ⟨rest, hd + (writei_32 wbNew m 36).bytes.length⟩) := by
  by_cases hb1 : m ≤ 0x7F
  · rw [show writei_32 wbNew m 36 = write_8 wbNew m 36 from if_pos hb1, write_8_bytes]
    simp only [wbNew, List.nil_append, List.cons_append, List.length_cons, List.length_nil]
    rw [show m % 2 ^ 8 = m from by omega, readInteger_t36]
  · rw [show writei_32 wbNew m 36 = if m ≤ 0x7FFF then write_16 wbNew m 37
        else write_32 wbNew m 38 from if_neg hb1]
    by_cases hb2 : m ≤ 0x7FFF
    · rw [if_pos hb2, write_16_bytes]
      simp only [wbNew, leB, List.nil_append, List.cons_append, List.length_cons,
        List.length_nil]
      rw [readInteger_t37, show m % 2 ^ 8 + 2 ^ 8 * (m / 2 ^ 8 % 2 ^ 8) = m from by omega]
    · rw [if_neg hb2, write_32_bytes]
      simp only [wbNew, leB, List.nil_append, List.cons_append, List.length_cons,
        List.length_nil]
      rw [readInteger_t38, show m % 2 ^ 8 + 2 ^ 8 * (m / 2 ^ 8 % 2 ^ 8) +
        2 ^ 16 * (m / 2 ^ 8 / 2 ^ 8 % 2 ^ 8) +
        2 ^ 24 * (m / 2 ^ 8 / 2 ^ 8 / 2 ^ 8 % 2 ^ 8) = m from by omega]

theorem rt_writei_64_neg (cast : Int → Int) (m : Nat) (rest : List Nat) (hd : Nat)
    (hm2 : m < 2 ^ 63) :
    readInteger cast ⟨(writei_64 wbNew m 9).bytes ++ rest, hd⟩ =
      .ok (cast (-(m : Int)), ⟨rest, hd + (writei_64 wbNew m 9).bytes.length⟩) := by
  by_cases hb1 : m ≤ 0x7FFFFFFFFFFF
  · rw [show writei_64 wbNew m 9 = write_48 wbNew m 12 from if_pos hb1, write_48_bytes]
    simp only [wbNew, leB, List.nil_append, List.cons_append, List.length_cons,
      List.length_nil]
    rw [readInteger_t12]
    have e1 : m % 2 ^ 16 % 2 ^ 8 + 2 ^ 8 * (m % 2 ^ 16 / 2 ^ 8 % 2 ^ 8) = m % 2 ^ 16 := by
      omega
    have e2 : m / 2 ^ 16 % 2 ^ 8 + 2 ^ 8 * (m / 2 ^ 16 / 2 ^ 8 % 2 ^ 8) +
        2 ^ 16 * (m / 2 ^ 16 / 2 ^ 8 / 2 ^ 8 % 2 ^ 8) +
        2 ^ 24 * (m / 2 ^ 16 / 2 ^ 8 / 2 ^ 8 / 2 ^ 8 % 2 ^ 8) = m / 2 ^ 16 := by
      omega
    have e3 : -((m % 2 ^ 16 : Nat) : Int) - ((m / 2 ^ 16 : Nat) : Int) * 2 ^ 16 =
        -(m : Int) := by
      push_cast
      omega
    rw [e1, e2, e3]
  · rw [show writei_64 wbNew m 9 = write_64 wbNew m 13 from if_neg hb1, write_64_bytes]
    simp only [wbNew, leB, List.nil_append, List.cons_append, List.length_cons,
      List.length_nil]
    rw [readInteger_t13]
    have e1 : m % 2 ^ 8 + 2 ^ 8 * (m / 2 ^ 8 % 2 ^ 8) + 2 ^ 16 * (m / 2 ^ 8 / 2 ^ 8 % 2 ^ 8) +
        2 ^ 24 * (m / 2 ^ 8 / 2 ^ 8 / 2 ^ 8 % 2 ^ 8) +
        2 ^ 32 * (m / 2 ^ 8 / 2 ^ 8 / 2 ^ 8 / 2 ^ 8 % 2 ^ 8) +
        2 ^ 40 * (m / 2 ^ 8 / 2 ^ 8 / 2 ^ 8 / 2 ^ 8 / 2 ^ 8 % 2 ^ 8) +
        2 ^ 48 * (m / 2 ^ 8 / 2 ^ 8 / 2 ^ 8 / 2 ^ 8 / 2 ^ 8 / 2 ^ 8 % 2 ^ 8) +
        2 ^ 56 * (m / 2 ^ 8 / 2 ^ 8 / 2 ^ 8 / 2 ^ 8 / 2 ^ 8 / 2 ^ 8 / 2 ^ 8 % 2 ^ 8) = m := by
      omega
    rw [e1]
    have e2 : toI 64 ((m : Nat) : Int) = (m : Int) := by
      unfold toI
      omega
    rw [e2]
    have e3 : toI 64 (-((m : Nat) : Int)) = -(m : Int) := by
      unfold toI
      omega
    rw [e3]

theorem rt_writei_64_pos (cast : Int → Int) (m : Nat) (rest : List Nat) (hd : Nat)
    (hm2 : m < 2 ^ 63) :
    readInteger cast ⟨(writei_64 wbNew m 36).bytes ++ rest, hd⟩ =
      .ok (cast (m : Int), ⟨rest, hd + (writei_64 wbNew m 36).bytes.length⟩) := by
  by_cases hb1 : m ≤ 0x7FFFFFFFFFFF
  · rw [show writei_64 wbNew m 36 = write_48 wbNew m 39 from if_pos hb1, write_48_bytes]
    simp only [wbNew, leB, List.nil_append, List.cons_append, List.length_cons,
      List.length_nil]
    rw [readInteger_t39]
    have e1 : m % 2 ^ 16 % 2 ^ 8 + 2 ^ 8 * (m % 2 ^ 16 / 2 ^ 8 % 2 ^ 8) = m % 2 ^ 16 := by
      omega
    have e2 : m / 2 ^ 16 % 2 ^ 8 + 2 ^ 8 * (m / 2 ^ 16 / 2 ^ 8 % 2 ^ 8) +
        2 ^ 16 * (m / 2 ^ 16 / 2 ^ 8 / 2 ^ 8 % 2 ^ 8) +
        2 ^ 24 * (m / 2 ^ 16 / 2 ^ 8 / 2 ^ 8 / 2 ^ 8 % 2 ^ 8) = m / 2 ^ 16 := by
      omega
    have e3 : ((m % 2 ^ 16 : Nat) : Int) + ((m / 2 ^ 16 : Nat) : Int) * 2 ^ 16 =
        (m : Int) := by
      push_cast
      omega
    rw [e1, e2, e3]
  · rw [show writei_64 wbNew m 36 = write_64 wbNew m 40 from if_neg hb1, write_64_bytes]
    simp only [wbNew, leB, List.nil_append, List.cons_append, List.length_cons,
      List.length_nil]
    rw [readInteger_t40]
    congr 3
    omega

set_option maxHeartbeats 1600000 in
theorem rt_write128_14 (cast : Int → Int) (m : Nat) (rest : List Nat) (hd : Nat)
    (hm2 : m < 2 ^ 127) :
    readInteger cast ⟨(write_128 wbNew m 14).bytes ++ rest, hd⟩ =
      .ok (cast (-(m : Int)), ⟨rest, hd + 17⟩) := by
  rw [write_128_bytes]
  simp only [wbNew, leB, List.nil_append, List.cons_append]
  rw [readInteger_t14]
  have e1 : m % 2^8 + 2^8 * (m / 2^8 % 2^8) + 2^16 * (m / 2^8 / 2^8 % 2^8) +
      2^24 * (m / 2^8 / 2^8 / 2^8 % 2^8) + 2^32 * (m / 2^8 / 2^8 / 2^8 / 2^8 % 2^8) +
      2^40 * (m / 2^8 / 2^8 / 2^8 / 2^8 / 2^8 % 2^8) +
      2^48 * (m / 2^8 / 2^8 / 2^8 / 2^8 / 2^8 / 2^8 % 2^8) +
      2^56 * (m / 2^8 / 2^8 / 2^8 / 2^8 / 2^8 / 2^8 / 2^8 % 2^8) +
      2^64 * (m / 2^8 / 2^8 / 2^8 / 2^8 / 2^8 / 2^8 / 2^8 / 2^8 % 2^8) +
      2^72 * (m / 2^8 / 2^8 / 2^8 / 2^8 / 2^8 / 2^8 / 2^8 / 2^8 / 2^8 % 2^8) +
      2^80 * (m / 2^8 / 2^8 / 2^8 / 2^8 / 2^8 / 2^8 / 2^8 / 2^8 / 2^8 / 2^8 % 2^8) +
      2^88 * (m / 2^8 / 2^8 / 2^8 / 2^8 / 2^8 / 2^8 / 2^8 / 2^8 / 2^8 / 2^8 / 2^8 % 2^8) +
      2^96 * (m / 2^8 / 2^8 / 2^8 / 2^8 / 2^8 / 2^8 / 2^8 / 2^8 / 2^8 / 2^8 / 2^8 / 2^8 % 2^8) +
      2^104 * (m / 2^8 / 2^8 / 2^8 / 2^8 / 2^8 / 2^8 / 2^8 / 2^8 / 2^8 / 2^8 / 2^8 / 2^8 / 2^8 % 2^8) +
      2^112 * (m / 2^8 / 2^8 / 2^8 / 2^8 / 2^8 / 2^8 / 2^8 / 2^8 / 2^8 / 2^8 / 2^8 / 2^8 / 2^8 / 2^8 % 2^8) +
      2^120 * (m / 2^8 / 2^8 / 2^8 / 2^8 / 2^8 / 2^8 / 2^8 / 2^8 / 2^8 / 2^8 / 2^8 / 2^8 / 2^8 / 2^8 / 2^8 % 2^8) = m := by
    omega
  rw [e1]
  have hm3 : (m : Int) < 2 ^ 127 := by exact_mod_cast hm2
  have hm0 : (0 : Int) ≤ (m : Int) := Int.natCast_nonneg m
  have hp : (0 : Int) < 2 ^ 127 := by norm_num
  have e2 : toI 128 ((m : Nat) : Int) = (m : Int) := by
    refine toI_eq_of_range 128 (by norm_num) _ ?_ ?_
    · norm_num
      linarith
    · norm_num
      linarith
  rw [e2]
  have e3 : toI 128 (-((m : Nat) : Int)) = -(m : Int) := by
    refine toI_eq_of_range 128 (by norm_num) _ ?_ ?_
    · norm_num
      linarith
    · norm_num
      linarith
  rw [e3]

theorem rt_small (cast : Int → Int) (v : Int) (rest : List Nat) (hd : Nat)
    (h0 : -1 ≤ v) (h1 : v < 20) :
    readInteger cast ⟨(write_common wbNew v).bytes ++ rest, hd⟩ =
      .ok (cast v, ⟨rest, hd + 1⟩) := by
  rw [write_common_bytes _ _ h0 h1]
  simp only [wbNew, List.nil_append, List.cons_append]
  rw [readInteger_small cast (v + 16).toNat rest hd (by omega) (by omega)]
  have e : (((v + 16).toNat : Nat) : Int) - 16 = v := by omega
  rw [e]

theorem rt_uint64 (cast : Int → Int) (v : Nat) (rest : List Nat) (hd : Nat)
    (hv : v < 2 ^ 64) :
    ∃ hh, readInteger cast ⟨(write_uint64 wbNew v).bytes ++ rest, hd⟩ =
      .ok (cast (v : Int), ⟨rest, hh⟩) := by
  by_cases h1 : v < 20
  · refine ⟨hd + 1, ?_⟩
    rw [show write_uint64 wbNew v = write_common wbNew (v : Int) from if_pos h1]
    exact rt_small cast (v : Int) rest hd (by omega) (by exact_mod_cast h1)
  · by_cases h2 : v ≤ 0xFFFFFFFF
    · refine ⟨hd + (writeu_32 wbNew v).bytes.length, ?_⟩
      rw [show write_uint64 wbNew v = writeu_32 wbNew v from by
        unfold write_uint64
        rw [if_neg h1, if_pos h2]]
      exact rt_writeu_32 cast v rest hd (by omega)
    · refine ⟨hd + (writeu_64 wbNew v).bytes.length, ?_⟩
      rw [show write_uint64 wbNew v = writeu_64 wbNew v from by
        unfold write_uint64
        rw [if_neg h1, if_neg h2]]
      exact rt_writeu_64 cast v rest hd hv

theorem rt_uint128 (cast : Int → Int) (v : Nat) (rest : List Nat) (hd : Nat)
    (hv : v < 2 ^ 128) :
    ∃ hh, readInteger cast ⟨(write_uint128 wbNew v).bytes ++ rest, hd⟩ =
      .ok (cast (v : Int), ⟨rest, hh⟩) := by
  by_cases h1 : v < 20
  · refine ⟨hd + 1, ?_⟩
    rw [show write_uint128 wbNew v = write_common wbNew (v : Int) from if_pos h1]
    exact rt_small cast (v : Int) rest hd (by omega) (by exact_mod_cast h1)
  · by_cases h2 : v ≤ 0xFFFFFFFF
    · refine ⟨hd + (writeu_32 wbNew v).bytes.length, ?_⟩
      rw [show write_uint128 wbNew v = writeu_32 wbNew v from by
        unfold write_uint128
        rw [if_neg h1, if_pos h2]]
      exact rt_writeu_32 cast v rest hd (by omega)
    · by_cases h3 : v ≤ 0xFFFFFFFFFFFF
      · refine ⟨hd + (writeu_64 wbNew v).bytes.length, ?_⟩
        rw [show write_uint128 wbNew v = writeu_64 wbNew v from by
          unfold write_uint128
          rw [if_neg h1, if_neg h2, if_pos h3]]
        exact rt_writeu_64 cast v rest hd (by omega)
      · refine ⟨hd + 9, ?_⟩
        rw [show write_uint128 wbNew v = write_128 wbNew v 41 from by
          unfold write_uint128
          rw [if_neg h1, if_neg h2, if_neg h3]]
        exact rt_write128 cast v rest hd hv

theorem rt_int32 (cast : Int → Int) (v : Int) (rest : List Nat) (hd : Nat)
    (hlo : -(2 ^ 31) ≤ v) (hhi : v < 2 ^ 31) :
    ∃ hh, readInteger cast ⟨(write_int32 wbNew v).bytes ++ rest, hd⟩ =
      .ok (cast v, ⟨rest, hh⟩) := by
  by_cases h1 : -1 ≤ v ∧ v < 20
  · refine ⟨hd + 1, ?_⟩
    rw [show write_int32 wbNew v = write_common wbNew v from if_pos h1]
    exact rt_small cast v rest hd h1.1 h1.2
  · by_cases hneg : v < 0
    · have hcast : (toU 32 (toI 32 (-v))).toNat = (-v).toNat := by
        rw [toU_toI 32 (-v), toU_eq_of_lt 32 (-v) (by omega) (by omega)]
      have hw : write_int32 wbNew v = writei_32 wbNew (-v).toNat 9 := by
        unfold write_int32
        rw [if_neg h1]
        simp only [if_pos hneg, hcast]
      refine ⟨hd + (writei_32 wbNew (-v).toNat 9).bytes.length, ?_⟩
      rw [hw]
      rw [rt_writei_32_neg cast (-v).toNat rest hd (by omega)]
      rw [show -(((-v).toNat : Nat) : Int) = v from by omega]
    · have hcast : (toU 32 v).toNat = v.toNat := by
        rw [toU_eq_of_lt 32 v (by omega) (by omega)]
      have hw : write_int32 wbNew v = writei_32 wbNew v.toNat 36 := by
        unfold write_int32
        rw [if_neg h1]
        simp only [if_neg hneg, hcast]
      refine ⟨hd + (writei_32 wbNew v.toNat 36).bytes.length, ?_⟩
      rw [hw]
      rw [rt_writei_32_pos cast v.toNat rest hd (by omega)]
      rw [show ((v.toNat : Nat) : Int) = v from by omega]

/-! ## Helper lemmas: wide integers, floats, strings and binaries -/

theorem rt_int64 (cast : Int → Int) (v : Int) (rest : List Nat) (hd : Nat)
    (hlo : -(2 ^ 63) < v) (hhi : v < 2 ^ 63) :
    ∃ hh, readInteger cast ⟨(write_int64 wbNew v).bytes ++ rest, hd⟩ =
      .ok (cast v, ⟨rest, hh⟩) := by
  by_cases h1 : -1 ≤ v ∧ v < 20
  · refine ⟨hd + 1, ?_⟩
    rw [show write_int64 wbNew v = write_common wbNew v from if_pos h1]
    exact rt_small cast v rest hd h1.1 h1.2
  · by_cases hneg : v < 0
    · have hv1 : toI 64 (-v) = -v := by
        refine toI_eq_of_range 64 (by norm_num) _ (by norm_num; omega) (by norm_num; omega)
      by_cases hb : -v ≤ 0x7FFFFFFF
      · have hcast : (toU 32 (-v)).toNat = (-v).toNat := by
          rw [toU_eq_of_lt 32 (-v) (by omega) (by omega)]
        have hw : write_int64 wbNew v = writei_32 wbNew (-v).toNat 9 := by
          unfold write_int64
          rw [if_neg h1]
          simp only [if_pos hneg, hv1, if_pos hb, hcast]
        refine ⟨hd + (writei_32 wbNew (-v).toNat 9).bytes.length, ?_⟩
        rw [hw]
        rw [rt_writei_32_neg cast (-v).toNat rest hd (by omega)]
        rw [show -(((-v).toNat : Nat) : Int) = v from by omega]
      · have hcast : (toU 64 (-v)).toNat = (-v).toNat := by
          rw [toU_eq_of_lt 64 (-v) (by omega) (by norm_num; omega)]
        have hw : write_int64 wbNew v = writei_64 wbNew (-v).toNat 9 := by
          unfold write_int64
          rw [if_neg h1]
          simp only [if_pos hneg, hv1, if_neg hb, hcast]
        refine ⟨hd + (writei_64 wbNew (-v).toNat 9).bytes.length, ?_⟩
        rw [hw]
        rw [rt_writei_64_neg cast (-v).toNat rest hd (by norm_num; omega)]
        rw [show -(((-v).toNat : Nat) : Int) = v from by omega]
    · by_cases hb : v ≤ 0x7FFFFFFF
      · have hcast : (toU 32 v).toNat = v.toNat := by
          rw [toU_eq_of_lt 32 v (by omega) (by omega)]
        have hw : write_int64 wbNew v = writei_32 wbNew v.toNat 36 := by
          unfold write_int64
          rw [if_neg h1]
          simp only [if_neg hneg, if_pos hb, hcast]
        refine ⟨hd + (writei_32 wbNew v.toNat 36).bytes.length, ?_⟩
        rw [hw]
        rw [rt_writei_32_pos cast v.toNat rest hd (by omega)]
        rw [show ((v.toNat : Nat) : Int) = v from by omega]
      · have hcast : (toU 64 v).toNat = v.toNat := by
          rw [toU_eq_of_lt 64 v (by omega) (by norm_num; omega)]
        have hw : write_int64 wbNew v = writei_64 wbNew v.toNat 36 := by
          unfold write_int64
          rw [if_neg h1]
          simp only [if_neg hneg, if_neg hb, hcast]
        refine ⟨hd + (writei_64 wbNew v.toNat 36).bytes.length, ?_⟩
        rw [hw]
        rw [rt_writei_64_pos cast v.toNat rest hd (by norm_num; omega)]
        rw [show ((v.toNat : Nat) : Int) = v from by omega]

theorem rt_int128 (cast : Int → Int) (v : Int) (rest : List Nat) (hd : Nat)
    (hlo : -(2 ^ 127) < v) (hhi : v < 2 ^ 127) :
    ∃ hh, readInteger cast ⟨(write_int128 wbNew v).bytes ++ rest, hd⟩ =
      .ok (cast v, ⟨rest, hh⟩) := by
  by_cases h1 : -1 ≤ v ∧ v < 20
  · refine ⟨hd + 1, ?_⟩
    rw [show write_int128 wbNew v = write_common wbNew v from if_pos h1]
    exact rt_small cast v rest hd h1.1 h1.2
  · by_cases hneg : v < 0
    · have hv1 : toI 128 (-v) = -v := by
        refine toI_eq_of_range 128 (by norm_num) _ ?_ ?_
        · norm_num
          linarith
        · norm_num
          linarith
      by_cases hb : -v ≤ 0x7FFFFFFF
      · have hcast : (toU 32 (-v)).toNat = (-v).toNat := by
          rw [toU_eq_of_lt 32 (-v) (by omega) (by omega)]
        have hw : write_int128 wbNew v = writei_32 wbNew (-v).toNat 9 := by
          unfold write_int128
          rw [if_neg h1]
          simp only [if_pos hneg, hv1, if_pos hb, hcast]
        refine ⟨hd + (writei_32 wbNew (-v).toNat 9).bytes.length, ?_⟩
        rw [hw]
        rw [rt_writei_32_neg cast (-v).toNat rest hd (by omega)]
        rw [show -(((-v).toNat : Nat) : Int) = v from by omega]
      · by_cases hb2 : -v ≤ 0x7FFFFFFFFFFFFFFF
        · have hcast : (toU 64 (-v)).toNat = (-v).toNat := by
            rw [toU_eq_of_lt 64 (-v) (by omega) (by norm_num; omega)]
          have hw : write_int128 wbNew v = writei_64 wbNew (-v).toNat 9 := by
            unfold write_int128
            rw [if_neg h1]
            simp only [if_pos hneg, hv1, if_neg hb, if_pos hb2, hcast]
          refine ⟨hd + (writei_64 wbNew (-v).toNat 9).bytes.length, ?_⟩
          rw [hw]
          rw [rt_writei_64_neg cast (-v).toNat rest hd (by norm_num; omega)]
          rw [show -(((-v).toNat : Nat) : Int) = v from by omega]
        · have hvlt : -v < 2 ^ 127 := by linarith
          have hcast : (toU 128 (-v)).toNat = (-v).toNat := by
            rw [toU_eq_of_lt 128 (-v) (by omega) (by norm_num; linarith)]
          have hw : write_int128 wbNew v = write_128 wbNew (-v).toNat 14 := by
            unfold write_int128
            rw [if_neg h1]
            simp only [if_pos hneg, hv1, if_neg hb, if_neg hb2, hcast]
          refine ⟨hd + 17, ?_⟩
          rw [hw]
          rw [rt_write128_14 cast (-v).toNat rest hd (by omega)]
          rw [show -(((-v).toNat : Nat) : Int) = v from by omega]
    · by_cases hb : v ≤ 0x7FFFFFFF
      · have hcast : (toU 32 v).toNat = v.toNat := by
          rw [toU_eq_of_lt 32 v (by omega) (by omega)]
        have hw : write_int128 wbNew v = writei_32 wbNew v.toNat 36 := by
          unfold write_int128
          rw [if_neg h1]
          simp only [if_neg hneg, if_pos hb, hcast]
        refine ⟨hd + (writei_32 wbNew v.toNat 36).bytes.length, ?_⟩
        rw [hw]
        rw [rt_writei_32_pos cast v.toNat rest hd (by omega)]
        rw [show ((v.toNat : Nat) : Int) = v from by omega]
      · by_cases hb2 : v ≤ 0x7FFFFFFFFFFFFFFF
        · have hcast : (toU 64 v).toNat = v.toNat := by
            rw [toU_eq_of_lt 64 v (by omega) (by norm_num; omega)]
          have hw : write_int128 wbNew v = writei_64 wbNew v.toNat 36 := by
            unfold write_int128
            rw [if_neg h1]
            simp only [if_neg hneg, if_neg hb, if_pos hb2, hcast]
          refine ⟨hd + (writei_64 wbNew v.toNat 36).bytes.length, ?_⟩
          rw [hw]
          rw [rt_writei_64_pos cast v.toNat rest hd (by norm_num; omega)]
          rw [show ((v.toNat : Nat) : Int) = v from by omega]
        · have hcast : (toU 128 v).toNat = v.toNat := by
            rw [toU_eq_of_lt 128 v (by omega) (by norm_num; linarith)]
          have hw : write_int128 wbNew v = write_128 wbNew v.toNat 41 := by
            unfold write_int128
            rw [if_neg h1]
            simp only [if_neg hneg, if_neg hb, if_neg hb2, hcast]
          refine ⟨hd + 9, ?_⟩
          rw [hw]
          rw [rt_write128 cast v.toNat rest hd (by omega)]
          rw [show ((v.toNat : Nat) : Int) = v from by omega]

theorem bindRes_ok {α β : Type} (a : α) (s : RBuf) (f : α → RBuf → Res β) :
    bindRes (.ok (a, s)) f = f a s := rfl

theorem copyToBytes_all (l : List Nat) (hd : Nat) :
    copyToBytes l.length ⟨l, hd⟩ = .ok (l, ⟨[], hd⟩) := by
  unfold copyToBytes
  rw [if_pos le_rfl]
  simp

theorem readF32_t6 (b0 b1 b2 b3 : Nat) (rest : List Nat) (hd : Nat) :
    readF32 ⟨6 :: b0 :: b1 :: b2 :: b3 :: rest, hd⟩ =
      .ok (b0 + 2 ^ 8 * b1 + 2 ^ 16 * b2 + 2 ^ 24 * b3, ⟨rest, hd + 5⟩) := rfl

theorem readF64_t7 (b0 b1 b2 b3 b4 b5 b6 b7 : Nat) (rest : List Nat) (hd : Nat) :
    readF64 ⟨7 :: b0 :: b1 :: b2 :: b3 :: b4 :: b5 :: b6 :: b7 :: rest, hd⟩ =
      .ok (b0 + 2 ^ 8 * b1 + 2 ^ 16 * b2 + 2 ^ 24 * b3 + 2 ^ 32 * b4 +
        2 ^ 40 * b5 + 2 ^ 48 * b6 + 2 ^ 56 * b7, ⟨rest, hd + 9⟩) := rfl

theorem rt_f32 (bits : Nat) (hb : bits < 2 ^ 32) (hn : isNaN32 bits = false) :
    ∃ out hh, readF32 ⟨(write_f32 wbNew bits).bytes, 0⟩ = .ok (out, ⟨[], hh⟩) ∧
      f32Eq out bits = true := by
  by_cases hz : isZero32 bits = true
  · refine ⟨0, 1, ?_, ?_⟩
    · rw [show (write_f32 wbNew bits).bytes = [3] from by
        unfold write_f32
        rw [if_pos hz]
        simp [tryExtendCapity_bytes, wbNew]]
      rfl
    · simp [f32Eq, hn, hz]
      exact ⟨by decide, Or.inr (by decide)⟩
  · by_cases ho : bits = oneF32
    · subst ho
      refine ⟨oneF32, 1, ?_, by decide⟩
      rw [show (write_f32 wbNew oneF32).bytes = [4] from by
        unfold write_f32
        rw [if_neg hz, if_pos rfl]
        simp [tryExtendCapity_bytes, wbNew]]
      rfl
    · refine ⟨bits, 5, ?_, by simp [f32Eq, hn]⟩
      rw [show (write_f32 wbNew bits).bytes = 6 :: bits % 2 ^ 8 :: bits / 2 ^ 8 % 2 ^ 8 ::
          bits / 2 ^ 8 / 2 ^ 8 % 2 ^ 8 :: bits / 2 ^ 8 / 2 ^ 8 / 2 ^ 8 % 2 ^ 8 :: [] from by
        unfold write_f32
        rw [if_neg hz, if_neg ho]
        simp [tryExtendCapity_bytes, wbNew, leB]]
      rw [readF32_t6]
      rw [show bits % 2 ^ 8 + 2 ^ 8 * (bits / 2 ^ 8 % 2 ^ 8) +
        2 ^ 16 * (bits / 2 ^ 8 / 2 ^ 8 % 2 ^ 8) +
        2 ^ 24 * (bits / 2 ^ 8 / 2 ^ 8 / 2 ^ 8 % 2 ^ 8) = bits from by omega]

theorem rt_f64 (bits : Nat) (hb : bits < 2 ^ 64) (hn : isNaN64 bits = false) :
    ∃ out hh, readF64 ⟨(write_f64 wbNew bits).bytes, 0⟩ = .ok (out, ⟨[], hh⟩) ∧
      f64Eq out bits = true := by
  by_cases hz : isZero64 bits = true
  · refine ⟨0, 1, ?_, ?_⟩
    · rw [show (write_f64 wbNew bits).bytes = [3] from by
        unfold write_f64
        rw [if_pos hz]
        simp [tryExtendCapity_bytes, wbNew]]
      rfl
    · simp [f64Eq, hn, hz]
      exact ⟨by decide, Or.inr (by decide)⟩
  · by_cases ho : bits = oneF64
    · subst ho
      refine ⟨oneF64, 1, ?_, by decide⟩
      rw [show (write_f64 wbNew oneF64).bytes = [4] from by
        unfold write_f64
        rw [if_neg hz, if_pos rfl]
        simp [tryExtendCapity_bytes, wbNew]]
      rfl
    · refine ⟨bits, 9, ?_, by simp [f64Eq, hn]⟩
      rw [show (write_f64 wbNew bits).bytes = 7 :: bits % 2 ^ 8 :: bits / 2 ^ 8 % 2 ^ 8 ::
          bits / 2 ^ 8 / 2 ^ 8 % 2 ^ 8 :: bits / 2 ^ 8 / 2 ^ 8 / 2 ^ 8 % 2 ^ 8 ::
          bits / 2 ^ 8 / 2 ^ 8 / 2 ^ 8 / 2 ^ 8 % 2 ^ 8 ::
          bits / 2 ^ 8 / 2 ^ 8 / 2 ^ 8 / 2 ^ 8 / 2 ^ 8 % 2 ^ 8 ::
          bits / 2 ^ 8 / 2 ^ 8 / 2 ^ 8 / 2 ^ 8 / 2 ^ 8 / 2 ^ 8 % 2 ^ 8 ::
          bits / 2 ^ 8 / 2 ^ 8 / 2 ^ 8 / 2 ^ 8 / 2 ^ 8 / 2 ^ 8 / 2 ^ 8 % 2 ^ 8 :: [] from by
        unfold write_f64
        rw [if_neg hz, if_neg ho]
        simp [tryExtendCapity_bytes, wbNew, leB]]
      rw [readF64_t7]
      rw [show bits % 2 ^ 8 + 2 ^ 8 * (bits / 2 ^ 8 % 2 ^ 8) +
        2 ^ 16 * (bits / 2 ^ 8 / 2 ^ 8 % 2 ^ 8) +
        2 ^ 24 * (bits / 2 ^ 8 / 2 ^ 8 / 2 ^ 8 % 2 ^ 8) +
        2 ^ 32 * (bits / 2 ^ 8 / 2 ^ 8 / 2 ^ 8 / 2 ^ 8 % 2 ^ 8) +
        2 ^ 40 * (bits / 2 ^ 8 / 2 ^ 8 / 2 ^ 8 / 2 ^ 8 / 2 ^ 8 % 2 ^ 8) +
        2 ^ 48 * (bits / 2 ^ 8 / 2 ^ 8 / 2 ^ 8 / 2 ^ 8 / 2 ^ 8 / 2 ^ 8 % 2 ^ 8) +
        2 ^ 56 * (bits / 2 ^ 8 / 2 ^ 8 / 2 ^ 8 / 2 ^ 8 / 2 ^ 8 / 2 ^ 8 / 2 ^ 8 % 2 ^ 8) =
        bits from by omega]

theorem write_data_bytes (w : WBuf) (arr : List Nat) (t : Nat) :
    (write_data w arr t).bytes =
      w.bytes ++ (if arr.length ≤ 64 then [t + arr.length]
        else if arr.length ≤ 0xff then [t + 65, arr.length % 2 ^ 8]
        else if arr.length ≤ 0xffff then (t + 66) :: leB 2 arr.length
        else if arr.length ≤ 0xffffffff then (t + 67) :: leB 4 arr.length
        else if arr.length ≤ 0xffffffffffff then
          (t + 68) :: (leB 2 (arr.length % 2 ^ 16) ++ leB 4 (arr.length / 2 ^ 16))
        else (t + 69) :: leB 8 t) ++ arr := by
  unfold write_data
  split_ifs <;> simp [tryExtendCapity_bytes, leB, *]

theorem readUtf8_cons (t : Nat) (rest : List Nat) (hd : Nat) :
    readUtf8 ⟨t :: rest, hd⟩ = readUtf8Inner t ⟨rest, hd + 1⟩ := rfl

theorem readBin_cons (t : Nat) (rest : List Nat) (hd : Nat) :
    readBin ⟨t :: rest, hd⟩ = readBinInner t ⟨rest, hd + 1⟩ := rfl

theorem utf8LenStep_small (len : Nat) (s : RBuf) (h : len ≤ 64) :
    utf8LenStep (42 + len) s = .ok (len, { s with head := s.head + len }) := by
  unfold utf8LenStep
  rw [if_pos (by omega : 42 ≤ 42 + len ∧ 42 + len ≤ 106)]
  rw [show 42 + len - 42 = len from by omega]

theorem utf8LenStep_107 (b : Nat) (rest : List Nat) (hd : Nat) :
    utf8LenStep 107 ⟨b :: rest, hd⟩ = .ok (b, ⟨rest, hd + b + 1⟩) := rfl

theorem utf8LenStep_108 (b0 b1 : Nat) (rest : List Nat) (hd : Nat) :
    utf8LenStep 108 ⟨b0 :: b1 :: rest, hd⟩ =
      .ok (b0 + 2 ^ 8 * b1, ⟨rest, hd + (b0 + 2 ^ 8 * b1) + 2⟩) := rfl

theorem utf8LenStep_109 (b0 b1 b2 b3 : Nat) (rest : List Nat) (hd : Nat) :
    utf8LenStep 109 ⟨b0 :: b1 :: b2 :: b3 :: rest, hd⟩ =
      .ok (b0 + 2 ^ 8 * b1 + 2 ^ 16 * b2 + 2 ^ 24 * b3,
        ⟨rest, hd + (b0 + 2 ^ 8 * b1 + 2 ^ 16 * b2 + 2 ^ 24 * b3) + 4⟩) := rfl

theorem binLenStep_small (len : Nat) (s : RBuf) (h : len ≤ 64) :
    binLenStep (111 + len) s = .ok (len, { s with head := s.head + len }) := by
  unfold binLenStep
  rw [if_pos (by omega : 111 ≤ 111 + len ∧ 111 + len ≤ 175)]
  rw [show 111 + len - 111 = len from by omega]

theorem binLenStep_176 (b : Nat) (rest : List Nat) (hd : Nat) :
    binLenStep 176 ⟨b :: rest, hd⟩ = .ok (b, ⟨rest, hd + b + 1⟩) := rfl

theorem binLenStep_177 (b0 b1 : Nat) (rest : List Nat) (hd : Nat) :
    binLenStep 177 ⟨b0 :: b1 :: rest, hd⟩ =
      .ok (b0 + 2 ^ 8 * b1, ⟨rest, hd + (b0 + 2 ^ 8 * b1) + 2⟩) := rfl

theorem binLenStep_178 (b0 b1 b2 b3 : Nat) (rest : List Nat) (hd : Nat) :
    binLenStep 178 ⟨b0 :: b1 :: b2 :: b3 :: rest, hd⟩ =
      .ok (b0 + 2 ^ 8 * b1 + 2 ^ 16 * b2 + 2 ^ 24 * b3,
        ⟨rest, hd + (b0 + 2 ^ 8 * b1 + 2 ^ 16 * b2 + 2 ^ 24 * b3) + 4⟩) := rfl

theorem rt_utf8 (sb : List Nat) (h : sb.length ≤ 0xFFFFFFFF) :
    ∃ hh, readUtf8 ⟨(write_utf8 wbNew sb).bytes, 0⟩ = .ok (sb, ⟨[], hh⟩) := by
  unfold write_utf8
  rw [write_data_bytes]
  by_cases h1 : sb.length ≤ 64
  · rw [if_pos h1]
    refine ⟨0 + 1 + sb.length, ?_⟩
    simp only [wbNew, List.nil_append, List.cons_append, List.singleton_append]
    rw [readUtf8_cons]
    unfold readUtf8Inner
    rw [utf8LenStep_small sb.length _ h1, bindRes_ok]
    exact copyToBytes_all sb _
  · rw [if_neg h1]
    by_cases h2 : sb.length ≤ 0xff
    · rw [if_pos h2]
      refine ⟨0 + 1 + sb.length + 1, ?_⟩
      simp only [wbNew, List.nil_append, List.cons_append, List.singleton_append]
      rw [show (42 + 65 : Nat) = 107 from rfl, readUtf8_cons]
      unfold readUtf8Inner
      rw [utf8LenStep_107, bindRes_ok]
      rw [show sb.length % 2 ^ 8 = sb.length from by omega]
      exact copyToBytes_all sb _
    · by_cases h3 : sb.length ≤ 0xffff
      · rw [if_neg h2, if_pos h3]
        refine ⟨0 + 1 + sb.length + 2, ?_⟩
        simp only [wbNew, leB, List.nil_append, List.cons_append, List.singleton_append]
        rw [show (42 + 66 : Nat) = 108 from rfl, readUtf8_cons]
        unfold readUtf8Inner
        rw [utf8LenStep_108, bindRes_ok]
        rw [show sb.length % 2 ^ 8 + 2 ^ 8 * (sb.length / 2 ^ 8 % 2 ^ 8) = sb.length from
          by omega]
        exact copyToBytes_all sb _
      · rw [if_neg h2, if_neg h3, if_pos (by omega : sb.length ≤ 0xffffffff)]
        refine ⟨0 + 1 + sb.length + 4, ?_⟩
        simp only [wbNew, leB, List.nil_append, List.cons_append, List.singleton_append]
        rw [show (42 + 67 : Nat) = 109 from rfl, readUtf8_cons]
        unfold readUtf8Inner
        rw [utf8LenStep_109, bindRes_ok]
        rw [show sb.length % 2 ^ 8 + 2 ^ 8 * (sb.length / 2 ^ 8 % 2 ^ 8) +
          2 ^ 16 * (sb.length / 2 ^ 8 / 2 ^ 8 % 2 ^ 8) +
          2 ^ 24 * (sb.length / 2 ^ 8 / 2 ^ 8 / 2 ^ 8 % 2 ^ 8) = sb.length from by omega]
        exact copyToBytes_all sb _

theorem rt_bin (bb : List Nat) (h : bb.length ≤ 0xFFFFFFFF) :
    ∃ hh, readBin ⟨(write_bin wbNew bb 0 bb.length).bytes, 0⟩ = .ok (bb, ⟨[], hh⟩) := by
  unfold write_bin
  rw [show (bb.drop 0).take (bb.length - 0) = bb from by simp]
  rw [write_data_bytes]
  by_cases h1 : bb.length ≤ 64
  · rw [if_pos h1]
    refine ⟨0 + 1 + bb.length, ?_⟩
    simp only [wbNew, List.nil_append, List.cons_append, List.singleton_append]
    rw [readBin_cons]
    unfold readBinInner
    rw [binLenStep_small bb.length _ h1, bindRes_ok]
    exact copyToBytes_all bb _
  · rw [if_neg h1]
    by_cases h2 : bb.length ≤ 0xff
    · rw [if_pos h2]
      refine ⟨0 + 1 + bb.length + 1, ?_⟩
      simp only [wbNew, List.nil_append, List.cons_append, List.singleton_append]
      rw [show (111 + 65 : Nat) = 176 from rfl, readBin_cons]
      unfold readBinInner
      rw [binLenStep_176, bindRes_ok]
      rw [show bb.length % 2 ^ 8 = bb.length from by omega]
      exact copyToBytes_all bb _
    · by_cases h3 : bb.length ≤ 0xffff
      · rw [if_neg h2, if_pos h3]
        refine ⟨0 + 1 + bb.length + 2, ?_⟩
        simp only [wbNew, leB, List.nil_append, List.cons_append, List.singleton_append]
        rw [show (111 + 66 : Nat) = 177 from rfl, readBin_cons]
        unfold readBinInner
        rw [binLenStep_177, bindRes_ok]
        rw [show bb.length % 2 ^ 8 + 2 ^ 8 * (bb.length / 2 ^ 8 % 2 ^ 8) = bb.length from
          by omega]
        exact copyToBytes_all bb _
      · rw [if_neg h2, if_neg h3, if_pos (by omega : bb.length ≤ 0xffffffff)]
        refine ⟨0 + 1 + bb.length + 4, ?_⟩
        simp only [wbNew, leB, List.nil_append, List.cons_append, List.singleton_append]
        rw [show (111 + 67 : Nat) = 178 from rfl, readBin_cons]
        unfold readBinInner
        rw [binLenStep_178, bindRes_ok]
        rw [show bb.length % 2 ^ 8 + 2 ^ 8 * (bb.length / 2 ^ 8 % 2 ^ 8) +
          2 ^ 16 * (bb.length / 2 ^ 8 / 2 ^ 8 % 2 ^ 8) +
          2 ^ 24 * (bb.length / 2 ^ 8 / 2 ^ 8 / 2 ^ 8 % 2 ^ 8) = bb.length from by omega]
        exact copyToBytes_all bb _

theorem rt_uint32 (cast : Int → Int) (v : Nat) (rest : List Nat) (hd : Nat)
    (hv : v < 2 ^ 32) :
    ∃ hh, readInteger cast ⟨(write_uint32 wbNew v).bytes ++ rest, hd⟩ =
      .ok (cast (v : Int), ⟨rest, hh⟩) := by
  by_cases h1 : v < 20
  · refine ⟨hd + 1, ?_⟩
    rw [show write_uint32 wbNew v = write_common wbNew (v : Int) from if_pos h1]
    exact rt_small cast (v : Int) rest hd (by omega) (by exact_mod_cast h1)
  · refine ⟨hd + (writeu_32 wbNew v).bytes.length, ?_⟩
    rw [show write_uint32 wbNew v = writeu_32 wbNew v from if_neg h1]
    exact rt_writeu_32 cast v rest hd hv


/-! ## Helper lemmas: the u64 comparator refinement -/

theorem leB_length (n : Nat) : ∀ v : Nat, (leB n v).length = n := by
  induction n with
  | zero => intro v; rfl
  | succ k ih => intro v; simp [leB, ih]

theorem getTypeChunk_cons (t : Nat) (r : List Nat) (h : Nat) :
    getTypeChunk ⟨t :: r, h⟩ = .ok (t, ⟨t :: r, h⟩) := by
  unfold getTypeChunk probeBorder
  rw [if_neg (by simp only [List.length_cons]; omega)]

theorem advanceBy_all (l : List Nat) (h : Nat) :
    advanceBy l.length ⟨l, h⟩ = .ok ((), ⟨[], h⟩) := by
  simp [advanceBy]

theorem base_type_len_band (t : Nat) (h1 : 15 ≤ t) (h2 : t ≤ 40) (s : RBuf) :
    base_type_len s t = .ok (tagLenU64 t, s) := by
  interval_cases t <;> rfl

theorem tagOfU64_lb (v : Nat) : 16 ≤ tagOfU64 v := by
  unfold tagOfU64; split_ifs <;> omega

theorem tagOfU64_ub (v : Nat) : tagOfU64 v ≤ 40 := by
  unfold tagOfU64; split_ifs <;> omega

theorem tagOfU64_mono (a b : Nat) (h : a ≤ b) : tagOfU64 a ≤ tagOfU64 b := by
  unfold tagOfU64; split_ifs <;> omega

theorem tagOfU64_small (v : Nat) (h : tagOfU64 v < 36) :
    v < 20 ∧ tagOfU64 v = 16 + v := by
  revert h; unfold tagOfU64; split_ifs <;> omega

theorem compare_intCast (a b : Nat) : compare (a : Int) (b : Int) = compare a b := by
  rcases Nat.lt_trichotomy a b with h | h | h
  · rw [Nat.compare_eq_lt.mpr h, compare_lt_iff_lt.mpr (by exact_mod_cast h)]
  · subst h; simp [Nat.compare_eq_eq, compare_eq_iff_eq.mpr rfl]
  · rw [Nat.compare_eq_gt.mpr h, compare_gt_iff_gt.mpr (by exact_mod_cast h)]

theorem encU64_shape (v : Nat) (hv : v < 2 ^ 64) :
    ∃ r, (write_uint64 wbNew v).bytes = tagOfU64 v :: r ∧
      (write_uint64 wbNew v).bytes.length = tagLenU64 (tagOfU64 v) := by
  by_cases h1 : v < 20
  · have ht : tagOfU64 v = 16 + v := by unfold tagOfU64; rw [if_pos h1]
    have hb : (write_uint64 wbNew v).bytes = [16 + v] := by
      rw [show write_uint64 wbNew v = write_common wbNew (v : Int) from if_pos h1]
      rw [write_common_bytes wbNew (v : Int) (by omega) (by exact_mod_cast h1)]
      have hc : ((v : Int) + 16).toNat = 16 + v := by omega
      simp [wbNew, hc]
    refine ⟨[], by rw [hb, ht], ?_⟩
    rw [hb, ht]
    unfold tagLenU64
    rw [if_pos (show 16 + v < 36 by omega)]
    rfl
  · by_cases h2 : v ≤ 0xFF
    · have ht : tagOfU64 v = 36 := by unfold tagOfU64; rw [if_neg h1, if_pos h2]
      have hb : (write_uint64 wbNew v).bytes = 36 :: [v % 2 ^ 8] := by
        rw [show write_uint64 wbNew v = writeu_32 wbNew v from by
          unfold write_uint64; rw [if_neg h1, if_pos (by omega)]]
        rw [show writeu_32 wbNew v = write_8 wbNew v 36 from if_pos h2]
        rw [write_8_bytes]
        simp [wbNew]
      exact ⟨[v % 2 ^ 8], by rw [hb, ht], by rw [hb, ht]; rfl⟩
    · by_cases h3 : v ≤ 0xFFFF
      · have ht : tagOfU64 v = 37 := by
          unfold tagOfU64; rw [if_neg h1, if_neg h2, if_pos h3]
        have hb : (write_uint64 wbNew v).bytes = 37 :: leB 2 v := by
          rw [show write_uint64 wbNew v = writeu_32 wbNew v from by
            unfold write_uint64; rw [if_neg h1, if_pos (by omega)]]
          rw [show writeu_32 wbNew v = write_16 wbNew v 37 from by
            unfold writeu_32; rw [if_neg h2, if_pos h3]]
          rw [write_16_bytes]
          simp [wbNew]
        refine ⟨leB 2 v, by rw [hb, ht], ?_⟩
        rw [hb, ht]
        simp [leB_length, tagLenU64]
      · by_cases h4 : v ≤ 0xFFFFFFFF
        · have ht : tagOfU64 v = 38 := by
            unfold tagOfU64; rw [if_neg h1, if_neg h2, if_neg h3, if_pos h4]
          have hb : (write_uint64 wbNew v).bytes = 38 :: leB 4 v := by
            rw [show write_uint64 wbNew v = writeu_32 wbNew v from by
              unfold write_uint64; rw [if_neg h1, if_pos h4]]
            rw [show writeu_32 wbNew v = write_32 wbNew v 38 from by
              unfold writeu_32; rw [if_neg h2, if_neg h3]]
            rw [write_32_bytes]
            simp [wbNew]
          refine ⟨leB 4 v, by rw [hb, ht], ?_⟩
          rw [hb, ht]
          simp [leB_length, tagLenU64]
        · by_cases h5 : v ≤ 0xFFFFFFFFFFFF
          · have ht : tagOfU64 v = 39 := by
              unfold tagOfU64
              rw [if_neg h1, if_neg h2, if_neg h3, if_neg h4, if_pos h5]
            have hb : (write_uint64 wbNew v).bytes =
                39 :: (leB 2 (v % 2 ^ 16) ++ leB 4 (v / 2 ^ 16)) := by
              rw [show write_uint64 wbNew v = writeu_64 wbNew v from by
                unfold write_uint64; rw [if_neg h1, if_neg h4]]
              rw [show writeu_64 wbNew v = write_48 wbNew v 39 from if_pos h5]
              rw [write_48_bytes]
              simp [wbNew]
            refine ⟨leB 2 (v % 2 ^ 16) ++ leB 4 (v / 2 ^ 16), by rw [hb, ht], ?_⟩
            rw [hb, ht]
            simp [leB_length, tagLenU64]
          · have ht : tagOfU64 v = 40 := by
              unfold tagOfU64
              rw [if_neg h1, if_neg h2, if_neg h3, if_neg h4, if_neg h5]
            have hb : (write_uint64 wbNew v).bytes = 40 :: leB 8 v := by
              rw [show write_uint64 wbNew v = writeu_64 wbNew v from by
                unfold write_uint64; rw [if_neg h1, if_neg h4]]
              rw [show writeu_64 wbNew v = write_64 wbNew v 40 from if_neg h5]
              rw [write_64_bytes]
              simp [wbNew]
            refine ⟨leB 8 v, by rw [hb, ht], ?_⟩
            rw [hb, ht]
            simp [leB_length, tagLenU64]

/-- Evaluation of one comparator step on two `write_uint64` encodings: it
returns exactly the semantic ordering of the two values and exhausts the
first buffer. -/
theorem cmpStep_u64 (a b : Nat) (ha : a < 2 ^ 64) (hb : b < 2 ^ 64) :
    ∃ s1 s2,
      cmpStep ⟨(write_uint64 wbNew a).bytes, 0⟩ ⟨(write_uint64 wbNew b).bytes, 0⟩ =
        .ok (some (compare a b), s1, s2) ∧ s1.bytes = [] := by
  obtain ⟨r1, he1, hl1⟩ := encU64_shape a ha
  obtain ⟨r2, he2, hl2⟩ := encU64_shape b hb
  have t1lb := tagOfU64_lb a
  have t1ub := tagOfU64_ub a
  have t2lb := tagOfU64_lb b
  have t2ub := tagOfU64_ub b
  have hlen1 : tagLenU64 (tagOfU64 a) = (tagOfU64 a :: r1).length := by
    rw [← hl1, he1]
  have hlen2 : tagLenU64 (tagOfU64 b) = (tagOfU64 b :: r2).length := by
    rw [← hl2, he2]
  have hB1 : ∀ s : RBuf,
      base_type_len s (tagOfU64 a) = .ok (tagLenU64 (tagOfU64 a), s) :=
    fun s => base_type_len_band _ (by omega) (by omega) s
  have hB2 : ∀ s : RBuf,
      base_type_len s (tagOfU64 b) = .ok (tagLenU64 (tagOfU64 b), s) :=
    fun s => base_type_len_band _ (by omega) (by omega) s
  have hA1 : advanceBy (tagLenU64 (tagOfU64 a)) ⟨tagOfU64 a :: r1, 0⟩ =
      .ok ((), ⟨[], 0⟩) := by
    rw [hlen1]; exact advanceBy_all _ 0
  have hA2 : advanceBy (tagLenU64 (tagOfU64 b)) ⟨tagOfU64 b :: r2, 0⟩ =
      .ok ((), ⟨[], 0⟩) := by
    rw [hlen2]; exact advanceBy_all _ 0
  rw [he1, he2]
  unfold cmpStep
  simp only [getTypeChunk_cons]
  rw [if_neg (show ¬(3 ≤ tagOfU64 a ∧ tagOfU64 a < 8) from by omega)]
  rw [if_pos (show 9 ≤ tagOfU64 a ∧ tagOfU64 a < 42 from by omega)]
  rw [if_neg (show ¬(3 ≤ tagOfU64 b ∧ tagOfU64 b < 8) from by omega)]
  rw [if_pos (show 9 ≤ tagOfU64 b ∧ tagOfU64 b < 42 from by omega)]
  rcases Nat.lt_trichotomy (tagOfU64 a) (tagOfU64 b) with hlt | heq | hgt
  · have hab : a < b := by
      by_contra hc
      push_neg at hc
      exact absurd (tagOfU64_mono b a hc) (by omega)
    rw [if_neg (show ¬ tagOfU64 a > tagOfU64 b from by omega)]
    rw [if_pos hlt]
    simp only [hB1, hB2, hA1, hA2]
    rw [Nat.compare_eq_lt.mpr hab]
    exact ⟨_, _, rfl, rfl⟩
  · by_cases hsm : tagOfU64 a < 36
    · obtain ⟨ha20, hta⟩ := tagOfU64_small a hsm
      obtain ⟨hb20, htb⟩ := tagOfU64_small b (by omega)
      have hab : a = b := by omega
      rw [if_neg (show ¬ tagOfU64 a > tagOfU64 b from by omega)]
      rw [if_neg (show ¬ tagOfU64 a < tagOfU64 b from by omega)]
      rw [if_pos (show 14 < tagOfU64 a ∧ tagOfU64 a < 36 from by omega)]
      simp only [hB1, hB2, hA1, hA2]
      rw [show compare a b = Ordering.eq from by
        rw [hab]; simp [Nat.compare_eq_eq]]
      exact ⟨_, _, rfl, rfl⟩
    · rw [if_neg (show ¬ tagOfU64 a > tagOfU64 b from by omega)]
      rw [if_neg (show ¬ tagOfU64 a < tagOfU64 b from by omega)]
      rw [if_neg (show ¬(14 < tagOfU64 a ∧ tagOfU64 a < 36) from by omega)]
      unfold compare_int
      rw [if_neg (show ¬(9 ≤ tagOfU64 a ∧ tagOfU64 a < 14) from by omega)]
      rw [if_neg (show ¬ tagOfU64 a = 14 from by omega)]
      rw [if_pos (show 36 ≤ tagOfU64 a ∧ tagOfU64 a < 41 from by omega)]
      obtain ⟨h1, hr1⟩ := rt_uint64 (toU 64) a [] 0 ha
      rw [List.append_nil, toU_natCast 64 a ha] at hr1
      rw [he1] at hr1
      obtain ⟨h2, hr2⟩ := rt_uint64 (toU 64) b [] 0 hb
      rw [List.append_nil, toU_natCast 64 b hb] at hr2
      rw [he2] at hr2
      have hru1 : readU64 ⟨tagOfU64 a :: r1, 0⟩ = Except.ok ((a : Int), ⟨[], h1⟩) := hr1
      have hru2 : readU64 ⟨tagOfU64 b :: r2, 0⟩ = Except.ok ((b : Int), ⟨[], h2⟩) := hr2
      simp only [hru1, hru2]
      rw [compare_intCast]
      exact ⟨_, _, rfl, rfl⟩
  · have hba : b < a := by
      by_contra hc
      push_neg at hc
      exact absurd (tagOfU64_mono a b hc) (by omega)
    rw [if_pos (show tagOfU64 a > tagOfU64 b from hgt)]
    simp only [hB1, hB2, hA1, hA2]
    rw [Nat.compare_eq_gt.mpr hba]
    exact ⟨_, _, rfl, rfl⟩

/-! ## Claim theorems -/

/-- Claim C3 (code bug evaluation): `write_lengthen 256` stores `0x8100` in
native (little-endian) order as `[0x00, 0x81]`, so `read_lengthen` dispatches
on the low byte `0x00 < 0x80` and returns `Ok(0)`, not `Ok(256)`; the
rejection of `0x20000000` does hold. -/
theorem C3_lengthen_roundtrip_fails :
    write_lengthen wbNew 256 = .ok ⟨[0x00, 0x81], 2, 2⟩ ∧
    readLengthen ⟨[0x00, 0x81], 0⟩ = .ok (0, ⟨[0x81], 1⟩) ∧
    write_lengthen wbNew 0x20000000 =
      .error (.other ("Invalid lengthen: " ++ Nat.repr 0x20000000)) :=
  ⟨rfl, rfl, rfl⟩

/-- Claim C4 (code bug evaluation): encoding the C4 container with the band
the claim assumes (estimate ≤ 64) yields 7 bytes with the tag byte 186
appended *after* the payload, not in front of it; with the default estimate
(`None`) it instead prepends tag 246 plus a 2-byte length, 9 bytes total.
The claimed `[186, hash…, 21, 2]` shape is produced in neither case. -/
theorem C4_container_prefix_misplaced :
    write_container wbNew hashI32BoolPayload (some 6) =
      .ok ⟨[0x78, 0x56, 0x34, 0x12, 21, 2, 186], 6, 11⟩ ∧
    write_container wbNew hashI32BoolPayload none =
      .ok ⟨[246, 6, 0, 0x78, 0x56, 0x34, 0x12, 21, 2], 6, 65543⟩ :=
  ⟨rfl, rfl⟩

/-- Claim C5 counterexample: comparing two empty buffers panics (the
`get_type_chunk().unwrap()` at the top of `partial_cmp`), refuting "the
comparator never panics; decode failures yield no ordering" — `none` here
models the panic, while a returned "no ordering" is `some none`. -/
theorem C5_cex_empty_buffers_panic : rbufCmp [] [] = none := rfl

/-- Claim C5 amended: decode failures that surface as `Err` inside the
comparison loop are indeed converted to "no ordering" (`some none`): for any
two buffers starting with the invalid tag 250, `compare_contain` returns
`Err`, and `partial_cmp` returns `None` instead of propagating it.  (The
panics of the tag peeks and numeric reads, e.g. on empty buffers, remain.) -/
theorem C5_amended_inner_errors_give_none (xs ys : List Nat) :
    rbufCmp (250 :: xs) (250 :: ys) = some none := rfl

/-- Claim C6 counterexample: two tag-245 containers whose child sequences are
`[0]` and `[0, 0]` compare `Equal` — the comparator stops as soon as the
*first* buffer is exhausted and never checks that both payloads end together,
refuting "Equal exactly when every pair of corresponding children compares
equal and both payloads exhaust together". -/
theorem C6_cex_unequal_children_compare_equal :
    rbufCmp [245, 1, 0, 0, 0, 0, 16] [245, 2, 0, 0, 0, 0, 16, 16] =
      some (some .eq) ∧
    ([16] : List Nat) ≠ [16, 16] := ⟨rfl, by decide⟩

/-- Claim C6 amended: for *top-level* containers the comparator does skip the
tag, one length byte, and the 4-byte type hash on each side (the hash bytes
are ignored), then compares children element-wise — but it returns `Equal` as
soon as the first buffer's children are exhausted after an equal run, no
matter what the second buffer still holds; and nested containers are compared
by `compare_contain`, which consumes only the size prefix and unconditionally
reports `Equal` without visiting hash or children. -/
theorem C6_amended_first_exhausted_wins
    (n2 h1 h2 h3 h4 g1 g2 g3 g4 : Nat) (extra : List Nat) :
    rbufCmp [245, 1, h1, h2, h3, h4, 16]
      ([245, n2, g1, g2, g3, g4, 16] ++ extra) = some (some .eq) := by
  show rbufCmp _ (245 :: n2 :: g1 :: g2 :: g3 :: g4 :: 16 :: extra) = _
  simp only [rbufCmp, getTypeChunk, probeBorder, List.length_cons, containSkip]
  norm_num
  simp only [rbufCmpLoop, cmpStep, getTypeChunk, probeBorder, base_type_len,
    advanceBy, List.length_cons, List.drop_succ_cons, List.drop_zero]
  norm_num

/-- Claim C7 counterexample: `-128` lies in `-128..=127` and outside
`-1..=19`, but its magnitude 128 exceeds the signed single-byte bound `0x7F`,
so the encoder emits tag 10 plus two magnitude bytes — 3 bytes, not the
claimed 2. -/
theorem C7_cex_minus128_is_three_bytes :
    (write_int32 wbNew (-128)).bytes = [10, 128, 0] ∧
    (write_int32 wbNew (-128)).bytes.length ≠ 2 := ⟨rfl, by decide⟩

/-- Claim C8 (code bug evaluation): `read_f32`'s `5..7` match arm decodes the
reserved 16-bit-float tag 5 exactly like tag 6 — on `[5,0,0,0,0]` it returns
`Ok(0.0)` instead of an error; `read_f64` on tag 5 falls through to its
integer fallback and accepts `[5, 16]` as `Ok(0.0)`.  Only the generic
`read()` rejects tags 5 and 8 as the spec demands. -/
theorem C8_read_f32_accepts_tag5 :
    readF32 ⟨[5, 0, 0, 0, 0], 0⟩ = .ok (0, ⟨[], 5⟩) ∧
    readF64 ⟨[5, 16], 0⟩ = .ok (0, ⟨[], 1⟩) ∧
    readNext ⟨[5], 0⟩ =
      .error (.bon (.other ("16-bit float unsupported")), ⟨[], 1⟩) ∧
    readNext ⟨[8], 0⟩ =
      .error (.bon (.other ("128-bit float unsupported")), ⟨[], 1⟩) :=
  ⟨rfl, rfl, rfl, rfl⟩

/-- Claim C9 counterexample: `read_u32` on the truncated buffer `[36]` (tag
without its 1-byte payload) panics inside `get_u8` — the payload length is
never validated against the remaining bytes, so no `Overflow` error is
returned, refuting "every read applied to a truncated buffer returns the
Overflow error … rather than reading out of bounds or panicking". -/
theorem C9_cex_truncated_payload_panics :
    readU32 ⟨[36], 0⟩ = .error (.panic, ⟨[], 2⟩) ∧
    ∀ i l s2, readU32 ⟨[36], 0⟩ ≠ .error (.bon (.overflow i l), s2) := by
  refine ⟨rfl, ?_⟩
  intro i l s2 h
  simp [readU32, readInteger, probeBorder, getU8, mapRes] at h

/-- Claim C9 amended: the 1-byte pre-tag validation does hold — every typed
read on an empty buffer returns `Overflow { try_index: 1, len: 0 }` — and
`read_f32`/`read_f64` additionally validate their fixed payload widths
(tags 6/7), returning `Overflow` with the requested and remaining lengths;
but the other payload reads perform no such validation (see the
counterexample). -/
theorem C9_amended_probe_border_validation
    (bs : List Nat) (h4 : bs.length < 4) :
    readBool ⟨[], 0⟩ = .error (.bon (.overflow 1 0), ⟨[], 0⟩) ∧
    readU32 ⟨[], 0⟩ = .error (.bon (.overflow 1 0), ⟨[], 0⟩) ∧
    readI64 ⟨[], 0⟩ = .error (.bon (.overflow 1 0), ⟨[], 0⟩) ∧
    readF32 ⟨[], 0⟩ = .error (.bon (.overflow 1 0), ⟨[], 0⟩) ∧
    readF64 ⟨[], 0⟩ = .error (.bon (.overflow 1 0), ⟨[], 0⟩) ∧
    readUtf8 ⟨[], 0⟩ = .error (.bon (.overflow 1 0), ⟨[], 0⟩) ∧
    readBin ⟨[], 0⟩ = .error (.bon (.overflow 1 0), ⟨[], 0⟩) ∧
    readLengthen ⟨[], 0⟩ = .error (.bon (.overflow 1 0), ⟨[], 0⟩) ∧
    readNext ⟨[], 0⟩ = .error (.bon (.overflow 1 0), ⟨[], 0⟩) ∧
    readF32 ⟨6 :: bs, 0⟩ = .error (.bon (.overflow 4 bs.length), ⟨bs, 1⟩) := by
  refine ⟨rfl, rfl, rfl, rfl, rfl, rfl, rfl, rfl, rfl, ?_⟩
  simp [readF32, probeBorder, getU8, h4]

/-- Witness for C9 amended at the concrete truncated float `[6, 1, 2]`. -/
theorem C9_amended_probe_border_validation_witness :
    ([1, 2] : List Nat).length < 4 ∧
    readF32 ⟨[6, 1, 2], 0⟩ = .error (.bon (.overflow 4 2), ⟨[1, 2], 1⟩) :=
  ⟨by decide, (C9_amended_probe_border_validation [1, 2] (by decide)).2.2.2.2.2.2.2.2.2⟩

/-- Claim C10 (confirmed): the generic `read()` returns `EnumValue::F64` with
the stored 48-bit integer converted to `f64` for the unsigned tag 39 and the
negative tag 12 — unlike the neighbouring integer tags (e.g. tag 40, shown
returning `U64`). -/
theorem C10_tag39_tag12_yield_f64 (p0 p1 p2 p3 p4 p5 : Nat) :
    readNext ⟨[39, p0, p1, p2, p3, p4, p5], 0⟩ =
      .ok (.F64 (natToF64 (p0 + 2 ^ 8 * p1 + 2 ^ 16 * p2 + 2 ^ 24 * p3 +
        2 ^ 32 * p4 + 2 ^ 40 * p5)), ⟨[], 7⟩) ∧
    readNext ⟨[12, p0, p1, p2, p3, p4, p5], 0⟩ =
      .ok (.F64 (intToF64 (-(p0 + 2 ^ 8 * p1 + 2 ^ 16 * p2 + 2 ^ 24 * p3 +
        2 ^ 32 * p4 + 2 ^ 40 * p5 : Int))), ⟨[], 7⟩) ∧
    readNext ⟨[40, 1, 0, 0, 0, 0, 0, 0, 0], 0⟩ = .ok (.U64 1, ⟨[], 9⟩) := by
  refine ⟨?_, ?_, rfl⟩
  · simp only [readNext, probeBorder, getU8, getU16le, getU32le, mapRes]
    norm_num
    ring_nf
  · simp only [readNext, probeBorder, getU8, getU16le, getU32le, mapRes]
    norm_num
    congr 1
    ring

/-- Claim C2 counterexample: `write_i64` negates the magnitude before
encoding, which wraps at `i64::MIN`; the value encodes as `[9, 0]` (negative
zero) and decodes to `0`, not `i64::MIN`. -/
theorem C2_cex_i64_min :
    (write_i64 wbNew (-(2 ^ 63))).bytes = [9, 0] ∧
    readI64 ⟨[9, 0], 0⟩ = .ok (0, ⟨[], 2⟩) ∧
    ((0 : Int) ≠ -(2 ^ 63)) := ⟨by decide, rfl, by decide⟩

/-- Claim C1 counterexample: for two negative integers in different width
bands the comparator orders by tag band (`tag 9 < tag 10` gives `Less`), but
semantically `-2 > -300`; so byte comparison and decode-then-compare
disagree. -/
theorem C1_cex_negative_bands :
    (write_i32 wbNew (-2)).bytes = [9, 2] ∧
    (write_i32 wbNew (-300)).bytes = [10, 44, 1] ∧
    rbufCmp [9, 2] [10, 44, 1] = some (some .lt) ∧
    readI32 ⟨[9, 2], 0⟩ = .ok (-2, ⟨[], 2⟩) ∧
    readI32 ⟨[10, 44, 1], 0⟩ = .ok (-300, ⟨[], 3⟩) ∧
    compare (-2 : Int) (-300) = .gt := by
  refine ⟨by decide, by decide, rfl, rfl, rfl, by decide⟩


/-- Claim C2 amended: the encode/decode round-trip holds for every primitive
value except the spec's unrestricted quantification — it holds for bool, all
u8/u16/u32/u64/u128 values, all i8/i16/i32 values, i64 values other than
`i64::MIN` and i128 values other than `i128::MIN` (where `write_int64/128`
negate and wrap), non-NaN f32/f64 values up to IEEE-754 `==` (NaN never equals
itself), and UTF-8 strings and binaries of length at most `0xFFFFFFFF` (longer
payloads hit the buggy `0xFFFFFFFFFFFF` container arm). Each decoded value
equals the encoded one and the buffer is consumed exactly. -/
theorem C2_amended
    (b : Bool) (v8 v16 v32 v64 v128 : Nat) (w8 w16 w32 w64 w128 : Int)
    (fb db : Nat) (sb bb : List Nat)
    (h8 : v8 < 2 ^ 8) (h16 : v16 < 2 ^ 16) (h32 : v32 < 2 ^ 32)
    (h64 : v64 < 2 ^ 64) (h128 : v128 < 2 ^ 128)
    (g8l : -(2 ^ 7) ≤ w8) (g8h : w8 < 2 ^ 7)
    (g16l : -(2 ^ 15) ≤ w16) (g16h : w16 < 2 ^ 15)
    (g32l : -(2 ^ 31) ≤ w32) (g32h : w32 < 2 ^ 31)
    (g64l : -(2 ^ 63) < w64) (g64h : w64 < 2 ^ 63)
    (g128l : -(2 ^ 127) < w128) (g128h : w128 < 2 ^ 127)
    (hfb : fb < 2 ^ 32) (hfn : isNaN32 fb = false)
    (hdb : db < 2 ^ 64) (hdn : isNaN64 db = false)
    (hsb : sb.length ≤ 0xFFFFFFFF) (hbb : bb.length ≤ 0xFFFFFFFF) :
    (readBool ⟨(write_bool wbNew b).bytes, 0⟩ = .ok (b, ⟨[], 1⟩)) ∧
    (∃ h, readU8 ⟨(write_u8 wbNew v8).bytes, 0⟩ = .ok ((v8 : Int), ⟨[], h⟩)) ∧
    (∃ h, readU16 ⟨(write_u16 wbNew v16).bytes, 0⟩ = .ok ((v16 : Int), ⟨[], h⟩)) ∧
    (∃ h, readU32 ⟨(write_u32 wbNew v32).bytes, 0⟩ = .ok ((v32 : Int), ⟨[], h⟩)) ∧
    (∃ h, readU64 ⟨(write_u64 wbNew v64).bytes, 0⟩ = .ok ((v64 : Int), ⟨[], h⟩)) ∧
    (∃ h, readU128 ⟨(write_u128 wbNew v128).bytes, 0⟩ = .ok ((v128 : Int), ⟨[], h⟩)) ∧
    (∃ h, readI8 ⟨(write_i8 wbNew w8).bytes, 0⟩ = .ok (w8, ⟨[], h⟩)) ∧
    (∃ h, readI16 ⟨(write_i16 wbNew w16).bytes, 0⟩ = .ok (w16, ⟨[], h⟩)) ∧
    (∃ h, readI32 ⟨(write_i32 wbNew w32).bytes, 0⟩ = .ok (w32, ⟨[], h⟩)) ∧
    (∃ h, readI64 ⟨(write_i64 wbNew w64).bytes, 0⟩ = .ok (w64, ⟨[], h⟩)) ∧
    (∃ h, readI128 ⟨(write_i128 wbNew w128).bytes, 0⟩ = .ok (w128, ⟨[], h⟩)) ∧
    (∃ out h, readF32 ⟨(write_f32 wbNew fb).bytes, 0⟩ = .ok (out, ⟨[], h⟩) ∧
      f32Eq out fb = true) ∧
    (∃ out h, readF64 ⟨(write_f64 wbNew db).bytes, 0⟩ = .ok (out, ⟨[], h⟩) ∧
      f64Eq out db = true) ∧
    (∃ h, readUtf8 ⟨(write_utf8 wbNew sb).bytes, 0⟩ = .ok (sb, ⟨[], h⟩)) ∧
    (∃ h, readBin ⟨(write_bin wbNew bb 0 bb.length).bytes, 0⟩ = .ok (bb, ⟨[], h⟩)) := by
  refine ⟨?_, ?_, ?_, ?_, ?_, ?_, ?_, ?_, ?_, ?_, ?_, ?_, ?_, ?_, ?_⟩
  · cases b <;> rfl
  · obtain ⟨hh, h⟩ := rt_uint32 (toU 32) v8 [] 0 (by omega)
    simp only [List.append_nil] at h
    refine ⟨hh, ?_⟩
    unfold readU8 write_u8
    rw [h, toU_natCast 32 v8 (by omega)]
    simp only [mapRes]
    rw [toU_natCast 8 v8 h8]
  · obtain ⟨hh, h⟩ := rt_uint32 (toU 32) v16 [] 0 (by omega)
    simp only [List.append_nil] at h
    refine ⟨hh, ?_⟩
    unfold readU16 write_u16
    rw [h, toU_natCast 32 v16 (by omega)]
    simp only [mapRes]
    rw [toU_natCast 16 v16 h16]
  · obtain ⟨hh, h⟩ := rt_uint32 (toU 32) v32 [] 0 h32
    simp only [List.append_nil] at h
    refine ⟨hh, ?_⟩
    unfold readU32 write_u32
    rw [h, toU_natCast 32 v32 h32]
  · obtain ⟨hh, h⟩ := rt_uint64 (toU 64) v64 [] 0 h64
    simp only [List.append_nil] at h
    refine ⟨hh, ?_⟩
    unfold readU64 write_u64
    rw [h, toU_natCast 64 v64 h64]
  · obtain ⟨hh, h⟩ := rt_uint128 (toU 128) v128 [] 0 h128
    simp only [List.append_nil] at h
    refine ⟨hh, ?_⟩
    unfold readU128 write_u128
    rw [h, toU_natCast 128 v128 h128]
  · obtain ⟨hh, h⟩ := rt_int32 (toI 32) w8 [] 0 (by omega) (by omega)
    simp only [List.append_nil] at h
    refine ⟨hh, ?_⟩
    unfold readI8 write_i8
    rw [h, toI_eq_of_range 32 (by norm_num) w8 (by norm_num; omega) (by norm_num; omega)]
    simp only [mapRes]
    rw [toI_eq_of_range 8 (by norm_num) w8 (by norm_num; omega) (by norm_num; omega)]
  · obtain ⟨hh, h⟩ := rt_int32 (toI 32) w16 [] 0 (by omega) (by omega)
    simp only [List.append_nil] at h
    refine ⟨hh, ?_⟩
    unfold readI16 write_i16
    rw [h, toI_eq_of_range 32 (by norm_num) w16 (by norm_num; omega) (by norm_num; omega)]
    simp only [mapRes]
    rw [toI_eq_of_range 16 (by norm_num) w16 (by norm_num; omega) (by norm_num; omega)]
  · obtain ⟨hh, h⟩ := rt_int32 (toI 32) w32 [] 0 g32l g32h
    simp only [List.append_nil] at h
    refine ⟨hh, ?_⟩
    unfold readI32 write_i32
    rw [h, toI_eq_of_range 32 (by norm_num) w32 (by norm_num; omega) (by norm_num; omega)]
  · obtain ⟨hh, h⟩ := rt_int64 (toI 64) w64 [] 0 g64l g64h
    simp only [List.append_nil] at h
    refine ⟨hh, ?_⟩
    unfold readI64 write_i64
    rw [h, toI_eq_of_range 64 (by norm_num) w64 (by norm_num; omega) (by norm_num; omega)]
  · obtain ⟨hh, h⟩ := rt_int128 (toI 128) w128 [] 0 g128l g128h
    simp only [List.append_nil] at h
    refine ⟨hh, ?_⟩
    unfold readI128 write_i128
    rw [h]
    rw [toI_eq_of_range 128 (by norm_num) w128 ?_ ?_]
    · norm_num
      linarith
    · norm_num
      linarith
  · exact rt_f32 fb hfb hfn
  · exact rt_f64 db hdb hdn
  · exact rt_utf8 sb hsb
  · exact rt_bin bb hbb

/-- Witness for C2 amended at concrete values of every primitive type. -/
theorem C2_amended_witness :
    ((200 : Nat) < 2 ^ 8 ∧ (40000 : Nat) < 2 ^ 16 ∧ (100000 : Nat) < 2 ^ 32 ∧
      (2 ^ 40 : Nat) < 2 ^ 64 ∧ (2 ^ 100 : Nat) < 2 ^ 128 ∧
      (-(2 ^ 7) : Int) ≤ -100 ∧ (-100 : Int) < 2 ^ 7 ∧
      (-(2 ^ 15) : Int) ≤ -30000 ∧ (-30000 : Int) < 2 ^ 15 ∧
      (-(2 ^ 31) : Int) ≤ -(2 ^ 31) ∧ (-(2 ^ 31) : Int) < 2 ^ 31 ∧
      (-(2 ^ 63) : Int) < -(2 ^ 40) ∧ (-(2 ^ 40) : Int) < 2 ^ 63 ∧
      (-(2 ^ 127) : Int) < -(2 ^ 100) ∧ (-(2 ^ 100) : Int) < 2 ^ 127 ∧
      (0x40200000 : Nat) < 2 ^ 32 ∧ isNaN32 0x40200000 = false ∧
      (0x4004000000000000 : Nat) < 2 ^ 64 ∧ isNaN64 0x4004000000000000 = false ∧
      ([97, 98, 99] : List Nat).length ≤ 0xFFFFFFFF ∧
      ([1, 2, 3] : List Nat).length ≤ 0xFFFFFFFF) ∧
    ((readBool ⟨(write_bool wbNew true).bytes, 0⟩ = .ok (true, ⟨[], 1⟩)) ∧
    (∃ h, readU8 ⟨(write_u8 wbNew 200).bytes, 0⟩ = .ok ((200 : Int), ⟨[], h⟩)) ∧
    (∃ h, readU16 ⟨(write_u16 wbNew 40000).bytes, 0⟩ = .ok ((40000 : Int), ⟨[], h⟩)) ∧
    (∃ h, readU32 ⟨(write_u32 wbNew 100000).bytes, 0⟩ = .ok ((100000 : Int), ⟨[], h⟩)) ∧
    (∃ h, readU64 ⟨(write_u64 wbNew (2 ^ 40)).bytes, 0⟩ =
      .ok (((2 ^ 40 : Nat) : Int), ⟨[], h⟩)) ∧
    (∃ h, readU128 ⟨(write_u128 wbNew (2 ^ 100)).bytes, 0⟩ =
      .ok (((2 ^ 100 : Nat) : Int), ⟨[], h⟩)) ∧
    (∃ h, readI8 ⟨(write_i8 wbNew (-100)).bytes, 0⟩ = .ok ((-100 : Int), ⟨[], h⟩)) ∧
    (∃ h, readI16 ⟨(write_i16 wbNew (-30000)).bytes, 0⟩ = .ok ((-30000 : Int), ⟨[], h⟩)) ∧
    (∃ h, readI32 ⟨(write_i32 wbNew (-(2 ^ 31))).bytes, 0⟩ =
      .ok ((-(2 ^ 31) : Int), ⟨[], h⟩)) ∧
    (∃ h, readI64 ⟨(write_i64 wbNew (-(2 ^ 40))).bytes, 0⟩ =
      .ok ((-(2 ^ 40) : Int), ⟨[], h⟩)) ∧
    (∃ h, readI128 ⟨(write_i128 wbNew (-(2 ^ 100))).bytes, 0⟩ =
      .ok ((-(2 ^ 100) : Int), ⟨[], h⟩)) ∧
    (∃ out h, readF32 ⟨(write_f32 wbNew 0x40200000).bytes, 0⟩ = .ok (out, ⟨[], h⟩) ∧
      f32Eq out 0x40200000 = true) ∧
    (∃ out h, readF64 ⟨(write_f64 wbNew 0x4004000000000000).bytes, 0⟩ =
      .ok (out, ⟨[], h⟩) ∧ f64Eq out 0x4004000000000000 = true) ∧
    (∃ h, readUtf8 ⟨(write_utf8 wbNew [97, 98, 99]).bytes, 0⟩ =
      .ok ([97, 98, 99], ⟨[], h⟩)) ∧
    (∃ h, readBin ⟨(write_bin wbNew [1, 2, 3] 0 ([1, 2, 3] : List Nat).length).bytes, 0⟩ =
      .ok ([1, 2, 3], ⟨[], h⟩))) :=
  ⟨⟨by norm_num, by norm_num, by norm_num, by norm_num, by norm_num,
    by norm_num, by norm_num, by norm_num, by norm_num, by norm_num, by norm_num,
    by norm_num, by norm_num, by norm_num, by norm_num, by norm_num, by decide,
    by norm_num, by decide, by decide, by decide⟩,
   C2_amended true 200 40000 100000 (2 ^ 40) (2 ^ 100) (-100) (-30000) (-(2 ^ 31))
     (-(2 ^ 40)) (-(2 ^ 100)) 0x40200000 0x4004000000000000 [97, 98, 99] [1, 2, 3]
     (by norm_num) (by norm_num) (by norm_num) (by norm_num) (by norm_num)
     (by norm_num) (by norm_num) (by norm_num) (by norm_num) (by norm_num)
     (by norm_num) (by norm_num) (by norm_num) (by norm_num) (by norm_num)
     (by norm_num) (by decide) (by norm_num) (by decide) (by decide) (by decide)⟩

/-- Claim C7 amended: the narrowest-encoding claim holds except at `-128`.
Every integer in `-1..=19` encodes to exactly 1 byte; f32 `0.0`, `-0.0` and
`1.0` encode to exactly 1 byte; and every integer in `-127..=127` outside
`-1..=19` encodes to exactly 2 bytes.  (`-128` itself takes 3 bytes because
`writei_32` switches to a 16-bit magnitude above `0x7F`, not `0xFF`.) -/
theorem C7_amended (v u : Int)
    (hv0 : -1 ≤ v) (hv1 : v < 20)
    (hu0 : -127 ≤ u) (hu1 : u ≤ 127) (hu2 : ¬(-1 ≤ u ∧ u < 20)) :
    (write_int32 wbNew v).bytes.length = 1 ∧
    (write_f32 wbNew 0).bytes.length = 1 ∧
    (write_f32 wbNew 0x80000000).bytes.length = 1 ∧
    (write_f32 wbNew oneF32).bytes.length = 1 ∧
    (write_int32 wbNew u).bytes.length = 2 := by
  refine ⟨?_, by decide, by decide, by decide, ?_⟩
  · rw [show write_int32 wbNew v = write_common wbNew v from if_pos ⟨hv0, hv1⟩]
    rw [write_common_bytes wbNew v hv0 hv1]
    simp [wbNew]
  · unfold write_int32
    rw [if_neg hu2]
    by_cases hneg : u < 0
    · simp only [if_pos hneg]
      rw [show toI 32 (-u) = -u from
        toI_eq_of_range 32 (by norm_num) (-u) (by omega) (by omega)]
      rw [toU_eq_of_lt 32 (-u) (by omega) (by omega)]
      unfold writei_32
      rw [if_pos (show (-u).toNat ≤ 0x7F from by omega)]
      simp [write_8, tryExtendCapity_bytes, wbNew, leB]
    · simp only [if_neg hneg]
      rw [toU_eq_of_lt 32 u (by omega) (by omega)]
      unfold writei_32
      rw [if_pos (show u.toNat ≤ 0x7F from by omega)]
      simp [write_8, tryExtendCapity_bytes, wbNew, leB]

/-- Witness for C7 amended at `v = 5` and `u = -100`. -/
theorem C7_amended_witness :
    ((-1 : Int) ≤ 5 ∧ (5 : Int) < 20 ∧ (-127 : Int) ≤ -100 ∧
      (-100 : Int) ≤ 127 ∧ ¬((-1 : Int) ≤ -100 ∧ (-100 : Int) < 20)) ∧
    ((write_int32 wbNew 5).bytes.length = 1 ∧
     (write_f32 wbNew 0).bytes.length = 1 ∧
     (write_f32 wbNew 0x80000000).bytes.length = 1 ∧
     (write_f32 wbNew oneF32).bytes.length = 1 ∧
     (write_int32 wbNew (-100)).bytes.length = 2) :=
  ⟨⟨by norm_num, by norm_num, by norm_num, by norm_num, by norm_num⟩,
   C7_amended 5 (-100) (by norm_num) (by norm_num) (by norm_num) (by norm_num)
     (by norm_num)⟩


/-- Claim C1 amended: the byte comparator refines semantic comparison on the
kinds where it is sound — here stated for unsigned 64-bit integers.  For all
`a, b < 2^64`, decoding each encoding yields the value back, and
`ReadBuffer::partial_cmp` on the two encoded buffers returns exactly
`decode(encode(a)).cmp(decode(encode(b)))`, across all width bands (common
one-byte tags 16..35 and prefixed tags 36..40).  (For negative integers the
claim fails: see the band counterexample.) -/
theorem C1_amended (a b : Nat) (ha : a < 2 ^ 64) (hb : b < 2 ^ 64) :
    (∃ h1, readU64 ⟨(write_u64 wbNew a).bytes, 0⟩ = .ok ((a : Int), ⟨[], h1⟩)) ∧
    (∃ h2, readU64 ⟨(write_u64 wbNew b).bytes, 0⟩ = .ok ((b : Int), ⟨[], h2⟩)) ∧
    rbufCmp (write_u64 wbNew a).bytes (write_u64 wbNew b).bytes =
      some (some (compare (a : Int) (b : Int))) := by
  refine ⟨?_, ?_, ?_⟩
  · obtain ⟨h1, hr1⟩ := rt_uint64 (toU 64) a [] 0 ha
    rw [List.append_nil, toU_natCast 64 a ha] at hr1
    exact ⟨h1, hr1⟩
  · obtain ⟨h2, hr2⟩ := rt_uint64 (toU 64) b [] 0 hb
    rw [List.append_nil, toU_natCast 64 b hb] at hr2
    exact ⟨h2, hr2⟩
  · rw [compare_intCast]
    obtain ⟨s1, s2, hstep, hs1⟩ := cmpStep_u64 a b ha hb
    obtain ⟨r1, he1, hl1⟩ := encU64_shape a ha
    obtain ⟨r2, he2, hl2⟩ := encU64_shape b hb
    have t1lb := tagOfU64_lb a
    have t1ub := tagOfU64_ub a
    have t2lb := tagOfU64_lb b
    have t2ub := tagOfU64_ub b
    rw [show write_u64 wbNew a = write_uint64 wbNew a from rfl]
    rw [show write_u64 wbNew b = write_uint64 wbNew b from rfl]
    rw [he1, he2] at hstep ⊢
    unfold rbufCmp
    simp only [getTypeChunk_cons, List.length_cons]
    rw [if_neg (show ¬((180 ≤ tagOfU64 a ∧ tagOfU64 a < 249) ∧
      (180 ≤ tagOfU64 b ∧ tagOfU64 b < 249)) from by omega)]
    cases hcmp : compare a b with
    | lt =>
      rw [hcmp] at hstep
      simp only [rbufCmpLoop]
      rw [hstep]
    | eq =>
      rw [hcmp] at hstep
      simp only [rbufCmpLoop]
      rw [hstep]
      simp [hs1]
    | gt =>
      rw [hcmp] at hstep
      simp only [rbufCmpLoop]
      rw [hstep]

/-- Witness for C1 amended at `a = 3` (one-byte band) and `b = 300`
(16-bit band). -/
theorem C1_amended_witness :
    ((3 : Nat) < 2 ^ 64 ∧ (300 : Nat) < 2 ^ 64) ∧
    ((∃ h1, readU64 ⟨(write_u64 wbNew 3).bytes, 0⟩ =
        .ok (((3 : Nat) : Int), ⟨[], h1⟩)) ∧
     (∃ h2, readU64 ⟨(write_u64 wbNew 300).bytes, 0⟩ =
        .ok (((300 : Nat) : Int), ⟨[], h2⟩)) ∧
     rbufCmp (write_u64 wbNew 3).bytes (write_u64 wbNew 300).bytes =
       some (some (compare ((3 : Nat) : Int) ((300 : Nat) : Int)))) :=
  ⟨⟨by norm_num, by norm_num⟩, C1_amended 3 300 (by norm_num) (by norm_num)⟩

end Bon
